/-
  Verification of the progress → completion → certificate issuance pipeline
  of the online_course_platform backend.

  Shallow embedding of:
    * the Progress (enrollment record) model and its methods
      (calculateOverallProgress, calculateCompletionPercentage,
       calculateFinalScore, updateProgress)            [backend/models/progress.js]
    * the Certificate model and its methods
      (generateCertificateNumber, generateVerificationCode,
       issueCertificate)                                [backend/models/certificate.js]
    * the progress controller operations
      (markLessonComplete, markModuleComplete, addTimeSpent)
                                                        [backend/controllers/progressController.js]
    * the certificate controller operations
      (generateCertificate, autoGenerateCertificate)    [backend/controllers/certificateController.js]

  JavaScript numbers are modelled as exact rationals (ℚ) where fractional
  arithmetic occurs, and as ℕ/ℤ for counters and identifiers.  `Math.round x`
  for a finite x is `⌊x + 1/2⌋` (round half toward +∞), modelled by `jsRound`.
  Document identifiers (ObjectIds) are modelled as ℕ, timestamps as ℕ.

  A MongoDB `findOne(filter)` is modelled by matching the filter's named
  fields against the named fields the document actually has (a filter naming
  a field the schema does not define matches no document) -- the behaviour of
  MongoDB and of mongoose with the modern strictQuery default.
-/

import Mathlib

namespace CoursePlatform

/-- `Math.round` of JavaScript on finite numbers: round half toward +∞. -/
def jsRound (q : ℚ) : ℤ := ⌊q + 1/2⌋

/-- Round-half-up as the spec describes it (spec §4.1 "standard round-half-up"). -/
def roundHalfUp (q : ℚ) : ℤ := ⌊q + 1/2⌋

/-- One entry of `moduleProgress` in the progress schema. -/
structure ModuleEntry where
  moduleId : ℕ
  completed : Bool
  completedLessons : List ℕ
  timeSpent : ℕ
  lastAccessed : ℕ
deriving Repr, DecidableEq

/-- The enrollment record (`Progress` document, backend/models/progress.js). -/
structure ProgressRecord where
  student : ℕ
  course : ℕ
  overallProgress : ℤ
  completionPercentage : ℤ
  moduleProgress : List ModuleEntry
  totalAssignments : ℕ
  completedAssignments : ℕ
  totalQuizzes : ℕ
  completedQuizzes : ℕ
  avgQuizScore : ℚ
  avgAssignmentScore : ℚ
  finalScore : ℤ
  enrolledAt : ℕ
  totalTimeSpent : ℕ
  lastActivity : ℕ
  completionDate : Option ℕ
  completedAt : Option ℕ
  certificateEarned : Option ℕ
  certificateGenerated : Bool
deriving Repr, DecidableEq

namespace ProgressRecord

/-- `this.moduleProgress.filter(module => module.completed).length`. -/
def completedModules (r : ProgressRecord) : ℕ :=
  (r.moduleProgress.filter (fun m => m.completed)).length

/-- `calculateOverallProgress` (progress.js):
    empty module list → 0, else `Math.round((completedModules / totalModules) * 100)`. -/
def calculateOverallProgress (r : ProgressRecord) : ℤ :=
  if r.moduleProgress.length = 0 then 0
  else jsRound (((r.completedModules : ℚ) / (r.moduleProgress.length : ℚ)) * 100)

/-- `calculateCompletionPercentage` (progress.js): the denominator starts from
    the module list and adds assignment and quiz counters when their totals
    are positive; result is `Math.round((completedItems / totalItems) * 100)`
    when `totalItems > 0`, else 0. -/
def calculateCompletionPercentage (r : ProgressRecord) : ℤ :=
  let totalItems0 := r.moduleProgress.length
  let completedItems0 := r.completedModules
  let totalItems1 := if r.totalAssignments > 0 then totalItems0 + r.totalAssignments else totalItems0
  let completedItems1 := if r.totalAssignments > 0 then completedItems0 + r.completedAssignments else completedItems0
  let totalItems2 := if r.totalQuizzes > 0 then totalItems1 + r.totalQuizzes else totalItems1
  let completedItems2 := if r.totalQuizzes > 0 then completedItems1 + r.completedQuizzes else completedItems1
  if totalItems2 > 0 then jsRound (((completedItems2 : ℚ) / (totalItems2 : ℚ)) * 100) else 0

/-- `calculateFinalScore` (progress.js): both averages zero → 85 (default
    passing score), else `Math.round(avgQuizScore * 0.4 + avgAssignmentScore * 0.6)`. -/
def calculateFinalScore (r : ProgressRecord) : ℤ :=
  if r.avgQuizScore = 0 ∧ r.avgAssignmentScore = 0 then 85
  else jsRound (r.avgQuizScore * (0.4 : ℚ) + r.avgAssignmentScore * (0.6 : ℚ))

end ProgressRecord

/-- A concrete enrollment record used for scenario evaluations: `n` modules of
    which the first `k` are completed, and all assessment counters zero. -/
def sampleRecord (n k : ℕ) : ProgressRecord where
  student := 1
  course := 1
  overallProgress := 0
  completionPercentage := 0
  moduleProgress :=
    (List.range n).map (fun i =>
      { moduleId := i, completed := decide (i < k), completedLessons := [],
        timeSpent := 0, lastAccessed := 0 })
  totalAssignments := 0
  completedAssignments := 0
  totalQuizzes := 0
  completedQuizzes := 0
  avgQuizScore := 0
  avgAssignmentScore := 0
  finalScore := 0
  enrolledAt := 0
  totalTimeSpent := 0
  lastActivity := 0
  completionDate := none
  completedAt := none
  certificateEarned := none
  certificateGenerated := false

/-! ## Certificate model (backend/models/certificate.js) -/

/-- Certificate `status` enum: `['pending', 'issued', 'revoked', 'expired']`. -/
inductive CertStatus
  | pending
  | issued
  | revoked
  | expired
deriving Repr, DecidableEq

/-- A Certificate document.  The public identity strings are modelled as
    numbers: `certificateNumber` is `CERT-{year}{month}-{4-digit random}` in the
    source and `verification.verificationCode` is a base-36 timestamp
    concatenated with a random component; only their assignment behaviour
    matters here, so both are numeric codes built from the clock and a random
    input. -/
structure Certificate where
  certId : ℕ
  student : ℕ
  course : ℕ
  instructor : ℕ
  certificateNumber : Option ℕ
  verificationCode : Option ℕ
  status : CertStatus
  issuedDate : Option ℕ
  completionDate : ℕ
  enrollmentDate : ℕ
  finalScore : ℤ
deriving Repr, DecidableEq

/-- The number `CERT-{year}{2-digit month}-{4-digit zero-padded random}` built
    by `generateCertificateNumber`: clock component and a `random % 10000` part. -/
def certNumberOf (now rnd : ℕ) : ℕ := now * 10000 + rnd % 10000

/-- The verification code built by `generateVerificationCode`: a time-based
    component concatenated with a random component. -/
def verCodeOf (now rnd : ℕ) : ℕ := now * 1000000 + rnd % 1000000

namespace Certificate

/-- `generateCertificateNumber` (certificate.js): assigns
    `this.certificateNumber` from the clock and a random draw. -/
def generateCertificateNumber (c : Certificate) (now rnd : ℕ) : Certificate :=
  { c with certificateNumber := some (certNumberOf now rnd) }

/-- `generateVerificationCode` (certificate.js): assigns
    `this.verification.verificationCode` from the clock and a random draw. -/
def generateVerificationCode (c : Certificate) (now rnd : ℕ) : Certificate :=
  { c with verificationCode := some (verCodeOf now rnd) }

/-- `issueCertificate` (certificate.js lines 269-284): unconditionally sets
    `status = 'issued'` and `issuedDate = new Date()`, then generates the
    certificate number and the verification code only when absent, and saves. -/
def issueCertificate (c : Certificate) (now rnd1 rnd2 : ℕ) : Certificate :=
  let c1 : Certificate := { c with status := .issued, issuedDate := some now }
  let c2 : Certificate :=
    if c1.certificateNumber = none then c1.generateCertificateNumber now rnd1 else c1
  if c2.verificationCode = none then c2.generateVerificationCode now rnd2 else c2

end Certificate

/-! ## Course catalog and external environment -/

/-- One module of a course; only `_id` and the lesson list are consulted by
    the progress pipeline. -/
structure CourseModule where
  id : ℕ
  lessons : List ℕ
deriving Repr, DecidableEq

/-- A Course document, restricted to the fields the pipeline reads. -/
structure Course where
  id : ℕ
  instructor : ℕ
  modules : List CourseModule
  duration : ℕ
deriving Repr, DecidableEq

/-- The external collaborators of one request: the clock, the Course and User
    collections (lookup by id), and the random draws consumed by certificate
    identity generation. -/
structure Env where
  now : ℕ
  courses : List Course
  users : List ℕ
  rnd1 : ℕ
  rnd2 : ℕ
deriving Repr, DecidableEq

/-- `Course.findById`. -/
def Env.findCourse (e : Env) (cid : ℕ) : Option Course :=
  e.courses.find? (fun c => c.id = cid)

/-- `User.findById` succeeding (the pipeline only dereferences the user's
    existence and name fields). -/
def Env.userExists (e : Env) (uid : ℕ) : Bool :=
  e.users.contains uid

/-! ## The database slice touched by the pipeline -/

/-- The persistent state: the Progress collection, the Certificate collection
    and a supply of fresh document ids for inserted certificates. -/
structure DB where
  progresses : List ProgressRecord
  certificates : List Certificate
  nextCertId : ℕ
deriving Repr, DecidableEq

/-- Field names usable in a `findOne` filter against the Progress collection.
    `user` is the misspelled path `generateCertificate` queries by; the
    progress schema defines no such path, so no document carries it. -/
inductive QueryField
  | student
  | course
  | user
deriving Repr, DecidableEq

/-- The value a Progress document exposes at a queried path.  The schema
    defines `student` and `course`; a filter on `user` finds no value. -/
def progressField (r : ProgressRecord) : QueryField → Option ℕ
  | .student => some r.student
  | .course => some r.course
  | .user => none

/-- MongoDB filter matching: every named field must be present with the
    demanded value. -/
def progressMatches (r : ProgressRecord) (filter : List (QueryField × ℕ)) : Bool :=
  filter.all (fun kv => progressField r kv.1 == some kv.2)

/-- `Progress.findOne(filter)`. -/
def findOneProgress (db : DB) (filter : List (QueryField × ℕ)) : Option ProgressRecord :=
  db.progresses.find? (fun r => progressMatches r filter)

/-- `Certificate.findOne({ student, course })`. -/
def findCertificate (db : DB) (sid cid : ℕ) : Option Certificate :=
  db.certificates.find? (fun c => c.student = sid && c.course = cid)

/-- `progress.save()`: write the (student, course)-keyed document back; the
    schema's unique compound index makes the pair the document key. -/
def saveProgress (db : DB) (r : ProgressRecord) : DB :=
  { db with progresses :=
      db.progresses.map (fun p =>
        if p.student = r.student ∧ p.course = r.course then r else p) }

/-- All Certificate documents of one (student, course) pair. -/
def pairCerts (db : DB) (sid cid : ℕ) : List Certificate :=
  db.certificates.filter (fun c => c.student = sid && c.course = cid)

/-- The Enrollment Record of a (student, course) pair, as the pipeline loads
    it: `Progress.findOne({ student, course })`. -/
def recordOf (db : DB) (sid cid : ℕ) : Option ProgressRecord :=
  findOneProgress db [(.student, sid), (.course, cid)]

/-! ## Certificate issuance (backend/controllers/certificateController.js) -/

/-- Result of `autoGenerateCertificate`: the resolved certificate together
    with the updated store, or the thrown error (`'Course or student not
    found'`, rethrown to the caller). -/
inductive AutoGenResult
  | ok (cert : Certificate) (db : DB)
  | err
deriving Repr, DecidableEq

/-- `autoGenerateCertificate(studentId, courseId, progressData)`
    (certificateController.js lines 133-198): return the existing certificate
    of the pair if one exists; otherwise look up Course and User (throwing when
    either is absent), construct a Certificate, generate its verification code
    and certificate number, and issue (and thereby save) it.
    `finalScore: progressData.finalScore || 85` maps 0 to 85. -/
def autoGenerateCertificate (db : DB) (env : Env) (sid cid : ℕ)
    (progressData : ProgressRecord) : AutoGenResult :=
  match findCertificate db sid cid with
  | some existing => .ok existing db
  | none =>
    match env.findCourse cid, env.userExists sid with
    | some course, true =>
      let cert : Certificate :=
        { certId := db.nextCertId
          student := sid
          course := cid
          instructor := course.instructor
          certificateNumber := none
          verificationCode := none
          status := .pending
          issuedDate := none
          completionDate := env.now
          enrollmentDate := progressData.enrolledAt
          finalScore := if progressData.finalScore = 0 then 85 else progressData.finalScore }
      let cert := cert.generateVerificationCode env.now env.rnd2
      let cert := cert.generateCertificateNumber env.now env.rnd1
      let cert := cert.issueCertificate env.now env.rnd1 env.rnd2
      .ok cert { db with certificates := db.certificates ++ [cert],
                         nextCertId := db.nextCertId + 1 }
    | _, _ => .err

/-! ## The progress-update protocol (progress.js `updateProgress` and
    backend/controllers/progressController.js) -/

/-- `updateProgress` (progress.js lines 314-345): recompute the three derived
    fields and `lastActivity`; when the freshly computed completion percentage
    reaches 100 and `completionDate` is still unset, set
    `completionDate`/`completedAt` and, if no certificate was generated yet,
    attempt automatic issuance, linking the certificate on success and
    swallowing a thrown error; finally save the record.  Returns the updated
    store together with the saved record. -/
def updateProgress (db : DB) (env : Env) (r : ProgressRecord) : DB × ProgressRecord :=
  let r1 : ProgressRecord := { r with overallProgress := r.calculateOverallProgress }
  let r2 : ProgressRecord := { r1 with completionPercentage := r1.calculateCompletionPercentage }
  let r3 : ProgressRecord := { r2 with finalScore := r2.calculateFinalScore }
  let r4 : ProgressRecord := { r3 with lastActivity := env.now }
  if r4.completionPercentage ≥ 100 ∧ r4.completionDate = none then
    let r5 : ProgressRecord := { r4 with completionDate := some env.now, completedAt := some env.now }
    if r5.certificateGenerated = false then
      match autoGenerateCertificate db env r5.student r5.course r5 with
      | .ok cert db' =>
        let r6 : ProgressRecord :=
          { r5 with certificateEarned := some cert.certId, certificateGenerated := true }
        (saveProgress db' r6, r6)
      | .err => (saveProgress db r5, r5)
    else (saveProgress db r5, r5)
  else (saveProgress db r4, r4)

/-- Outcome of a progress-controller operation, as the HTTP layer reports it. -/
inductive OpResult
  | ok
  | notFoundProgress
  | notFoundModule
  | serverError
deriving Repr, DecidableEq

/-- Rewrite the first `moduleProgress` entry with the given `moduleId`
    (the `findIndex` / mutate-at-index pattern of the controller). -/
def mutateFirstModule (moduleId : ℕ) (f : ModuleEntry → ModuleEntry) :
    List ModuleEntry → List ModuleEntry
  | [] => []
  | m :: ms =>
    if m.moduleId = moduleId then f m :: ms
    else m :: mutateFirstModule moduleId f ms

/-- The in-memory mutation `markLessonComplete` performs on the addressed
    module entry: append the lesson id when not yet present, add the optional
    positive time, refresh `lastAccessed`, and flip `completed` once the
    completed-lesson count reaches the course module's declared lesson count
    (when the course declares such a module). -/
def lessonMutation (course : Course) (moduleId lessonId : ℕ) (timeSpent : Option ℕ)
    (now : ℕ) (m : ModuleEntry) : ModuleEntry :=
  let m1 : ModuleEntry :=
    if m.completedLessons.contains lessonId then m
    else { m with completedLessons := m.completedLessons ++ [lessonId] }
  let m2 : ModuleEntry :=
    match timeSpent with
    | some ts => if 0 < ts then { m1 with timeSpent := m1.timeSpent + ts } else m1
    | none => m1
  let m3 : ModuleEntry := { m2 with lastAccessed := now }
  match course.modules.find? (fun cm => cm.id = moduleId) with
  | some cm =>
    if cm.lessons.length ≤ m3.completedLessons.length then { m3 with completed := true }
    else m3
  | none => m3

/-- The record-level `totalTimeSpent` increment of `markLessonComplete`
    (`if (timeSpent && timeSpent > 0)`). -/
def timeToAdd : Option ℕ → ℕ
  | some ts => if 0 < ts then ts else 0
  | none => 0

/-- `markLessonComplete` (progressController.js lines 170-246): load the pair's
    record (404 when absent), locate the module entry (404 when absent), apply
    the lesson mutation, load the course (`course.modules` on a missing course
    throws, so nothing is saved), and run `updateProgress`.  The in-memory
    mutations preceding the course lookup are only observable after the save
    inside `updateProgress`, so they are applied after the lookup here. -/
def markLessonComplete (db : DB) (env : Env) (sid cid moduleId lessonId : ℕ)
    (timeSpent : Option ℕ) : DB × OpResult :=
  match findOneProgress db [(.student, sid), (.course, cid)] with
  | none => (db, .notFoundProgress)
  | some progress =>
    if progress.moduleProgress.any (fun m => m.moduleId = moduleId) then
      match env.findCourse cid with
      | none => (db, .serverError)
      | some course =>
        let progress : ProgressRecord :=
          { progress with
            moduleProgress :=
              mutateFirstModule moduleId
                (lessonMutation course moduleId lessonId timeSpent env.now)
                progress.moduleProgress
            totalTimeSpent := progress.totalTimeSpent + timeToAdd timeSpent }
        ((updateProgress db env progress).1, .ok)
    else (db, .notFoundModule)

/-- `markModuleComplete` (progressController.js lines 249-305): load the pair's
    record (404 when absent), force-set the addressed module entry's
    `completed` flag (404 when the entry is absent), refresh `lastAccessed`,
    and run `updateProgress`. -/
def markModuleComplete (db : DB) (env : Env) (sid cid moduleId : ℕ) : DB × OpResult :=
  match findOneProgress db [(.student, sid), (.course, cid)] with
  | none => (db, .notFoundProgress)
  | some progress =>
    if progress.moduleProgress.any (fun m => m.moduleId = moduleId) then
      let progress : ProgressRecord :=
        { progress with
          moduleProgress :=
            mutateFirstModule moduleId
              (fun m => { m with completed := true, lastAccessed := env.now })
              progress.moduleProgress }
      ((updateProgress db env progress).1, .ok)
    else (db, .notFoundModule)

/-- Outcome of `addTimeSpent`, with the response's `totalTimeSpent` and
    `moduleTimeSpent` payload fields. -/
inductive TimeResult
  | ok (totalTimeSpent : ℕ) (moduleTimeSpent : Option ℕ)
  | invalidTime
  | notFoundProgress
deriving Repr, DecidableEq

/-- `addTimeSpent` (progressController.js lines 308-373): reject a missing or
    non-positive `timeSpent` (400), load the pair's record (404 when absent);
    when a `moduleId` is supplied and matches an entry, add the minutes to that
    entry (a non-matching `moduleId` is silently skipped); always add the
    minutes to `totalTimeSpent`, refresh `lastActivity`, and save.  The
    response reports the addressed module's time, or nothing when no entry
    matched (`find(...)?.timeSpent` is undefined). -/
def addTimeSpent (db : DB) (env : Env) (sid cid : ℕ) (moduleId : Option ℕ)
    (timeSpent : Option ℕ) : DB × TimeResult :=
  match timeSpent with
  | none => (db, .invalidTime)
  | some ts =>
    if ts = 0 then (db, .invalidTime)
    else
      match findOneProgress db [(.student, sid), (.course, cid)] with
      | none => (db, .notFoundProgress)
      | some progress =>
        let progress : ProgressRecord :=
          match moduleId with
          | some mid =>
            if progress.moduleProgress.any (fun m => m.moduleId = mid) then
              { progress with
                moduleProgress :=
                  mutateFirstModule mid
                    (fun m => { m with timeSpent := m.timeSpent + ts, lastAccessed := env.now })
                    progress.moduleProgress }
            else progress
          | none => progress
        let progress : ProgressRecord :=
          { progress with totalTimeSpent := progress.totalTimeSpent + ts,
                          lastActivity := env.now }
        let reported : Option ℕ :=
          match moduleId with
          | some mid => (progress.moduleProgress.find? (fun m => m.moduleId = mid)).map (·.timeSpent)
          | none => none
        (saveProgress db progress, .ok progress.totalTimeSpent reported)

/-- Outcome of the manual `generateCertificate` endpoint. -/
inductive GenCertResult
  | conflict (existingId : ℕ)
  | courseNotFound
  | studentNotFound
  | notCompleted (currentProgress : ℤ)
  | created (certId : ℕ)
deriving Repr, DecidableEq

/-- Manual issuance `generateCertificate` (certificateController.js lines
    7-130): reject when a certificate already exists for the pair (400), when
    the course is absent (404) or the student is absent (404); then consult
    `Progress.findOne({ user: studentId, course: courseId })` -- the filter
    names the path `user`, which the progress schema does not define, and the
    stored `completionPercentage` gates issuance (`'Student has not completed
    the course yet'`, reporting 0 when no record was found); otherwise build,
    number and issue a Certificate and insert it. -/
def generateCertificate (db : DB) (env : Env) (cid sid : ℕ) : DB × GenCertResult :=
  match findCertificate db sid cid with
  | some existing => (db, .conflict existing.certId)
  | none =>
    match env.findCourse cid with
    | none => (db, .courseNotFound)
    | some course =>
      if env.userExists sid then
        match findOneProgress db [(.user, sid), (.course, cid)] with
        | none => (db, .notCompleted 0)
        | some progress =>
          if progress.completionPercentage < 100 then
            (db, .notCompleted progress.completionPercentage)
          else
            let cert : Certificate :=
              { certId := db.nextCertId
                student := sid
                course := cid
                instructor := course.instructor
                certificateNumber := none
                verificationCode := none
                status := .pending
                issuedDate := none
                completionDate := (progress.completedAt).getD env.now
                enrollmentDate := progress.enrolledAt
                finalScore := if progress.finalScore = 0 then 85 else progress.finalScore }
            let cert := cert.generateVerificationCode env.now env.rnd2
            let cert := cert.generateCertificateNumber env.now env.rnd1
            let cert := cert.issueCertificate env.now env.rnd1 env.rnd2
            ({ db with certificates := db.certificates ++ [cert],
                       nextCertId := db.nextCertId + 1 },
             .created cert.certId)
      else (db, .studentNotFound)

/-! ## Sequences of pipeline operations -/

/-- One invocation of a pipeline operation. -/
inductive Op
  | markLesson (sid cid moduleId lessonId : ℕ) (timeSpent : Option ℕ)
  | markModule (sid cid moduleId : ℕ)
  | addTime (sid cid : ℕ) (moduleId : Option ℕ) (timeSpent : Option ℕ)
  | genCert (cid sid : ℕ)
deriving Repr, DecidableEq

/-- Apply one operation (with the external environment of that request) to the
    store, discarding the HTTP response. -/
def stepOp (db : DB) (oe : Op × Env) : DB :=
  match oe.1 with
  | .markLesson s c m l t => (markLessonComplete db oe.2 s c m l t).1
  | .markModule s c m => (markModuleComplete db oe.2 s c m).1
  | .addTime s c m t => (addTimeSpent db oe.2 s c m t).1
  | .genCert c s => (generateCertificate db oe.2 c s).1

/-- Run a sequence of operations. -/
def runOps (db : DB) (ops : List (Op × Env)) : DB :=
  ops.foldl stepOp db

/-- The Enrollment Record `createProgressRecord` creates at enrollment time
    (progressController.js lines 9-76): the module list snapshotted from the
    course, nothing completed, no certificate. -/
def freshRecord (sid cid : ℕ) (modIds : List ℕ) (now : ℕ) : ProgressRecord where
  student := sid
  course := cid
  overallProgress := 0
  completionPercentage := 0
  moduleProgress := modIds.map (fun mid =>
    { moduleId := mid, completed := false, completedLessons := [],
      timeSpent := 0, lastAccessed := now })
  totalAssignments := 0
  completedAssignments := 0
  totalQuizzes := 0
  completedQuizzes := 0
  avgQuizScore := 0
  avgAssignmentScore := 0
  finalScore := 0
  enrolledAt := now
  totalTimeSpent := 0
  lastActivity := now
  completionDate := none
  completedAt := none
  certificateEarned := none
  certificateGenerated := false

/-- A store holding freshly enrolled records (one per listed
    (student, course, course-module-ids) triple) and no certificates. -/
def initDB (enrollments : List (ℕ × ℕ × List ℕ)) : DB where
  progresses := enrollments.map (fun e => freshRecord e.1 e.2.1 e.2.2 0)
  certificates := []
  nextCertId := 0

/-! ## Arithmetic facts about `Math.round` on the ratios the pipeline forms -/

/-- Evaluate `Math.round((a / b) * 100)` on natural counts by integer
    division. -/
theorem jsRound_div_nat (a b : ℕ) (hb : 0 < b) :
    jsRound ((a : ℚ) / (b : ℚ) * 100) = (200 * (a : ℤ) + (b : ℤ)) / (2 * (b : ℤ)) := by
  have hbq : (b : ℚ) ≠ 0 := Nat.cast_ne_zero.mpr hb.ne'
  have h : (a : ℚ) / (b : ℚ) * 100 + 1/2
      = ((200 * (a : ℤ) + (b : ℤ) : ℤ) : ℚ) / ((2 * b : ℕ) : ℚ) := by
    push_cast
    field_simp
    ring
  rw [jsRound, h, Rat.floor_intCast_div_natCast]
  push_cast
  rfl

/-- Evaluate `Math.round` at a concrete value via the floor characterisation. -/
theorem jsRound_eval {q : ℚ} {n : ℤ} (h1 : (n : ℚ) ≤ q + 1/2) (h2 : q + 1/2 < (n : ℚ) + 1) :
    jsRound q = n := by
  rw [jsRound]
  exact Int.floor_eq_iff.mpr ⟨h1, h2⟩

/-- `Math.round` of a nonnegative value is nonnegative. -/
theorem jsRound_nonneg {q : ℚ} (h : 0 ≤ q) : 0 ≤ jsRound q := by
  rw [jsRound]
  exact Int.le_floor.mpr (by push_cast; linarith)

/-- `Math.round` of a value at most 100 is at most 100. -/
theorem jsRound_le_100 {q : ℚ} (h : q ≤ 100) : jsRound q ≤ 100 := by
  rw [jsRound]
  have h1 : (q + 1/2 : ℚ) < ((101 : ℤ) : ℚ) := by push_cast; linarith
  exact Int.lt_add_one_iff.mp (Int.floor_lt.mpr h1)

/-- `Math.round((c / t) * 100)` of a completed-over-total ratio lies in
    `[0, 100]`. -/
theorem jsRound_frac_bounds (c t : ℕ) (hct : c ≤ t) (ht : 0 < t) :
    0 ≤ jsRound ((c : ℚ) / (t : ℚ) * 100) ∧ jsRound ((c : ℚ) / (t : ℚ) * 100) ≤ 100 := by
  have htq : (0 : ℚ) < (t : ℚ) := by exact_mod_cast ht
  have hle : (c : ℚ) / (t : ℚ) ≤ 1 := by
    rw [div_le_one htq]
    exact_mod_cast hct
  have h0 : (0 : ℚ) ≤ (c : ℚ) / (t : ℚ) := by positivity
  exact ⟨jsRound_nonneg (by linarith), jsRound_le_100 (by linarith)⟩

/-! ## Claims C4, C5, C6: the Completion Calculator -/

/-- C4: `calculateOverallProgress` returns 0 on an empty module list and
    otherwise round-half-up of `100 × completedModules / totalModules`; the
    scenario record with 4 modules, 2 of them completed and no tracked
    assignments or quizzes yields overall progress 50 and completion
    percentage 50. -/
theorem c4_overall_progress_formula :
    (∀ r : ProgressRecord,
      r.calculateOverallProgress =
        if r.moduleProgress.length = 0 then 0
        else roundHalfUp (100 * (r.completedModules : ℚ) / (r.moduleProgress.length : ℚ)))
    ∧ (sampleRecord 4 2).calculateOverallProgress = 50
    ∧ (sampleRecord 4 2).calculateCompletionPercentage = 50 := by
  have hformula : ∀ r : ProgressRecord,
      r.calculateOverallProgress =
        if r.moduleProgress.length = 0 then 0
        else roundHalfUp (100 * (r.completedModules : ℚ) / (r.moduleProgress.length : ℚ)) := by
    intro r
    rw [ProgressRecord.calculateOverallProgress, roundHalfUp, jsRound]
    rcases eq_or_ne r.moduleProgress.length 0 with h | h
    · simp [h]
    · rw [if_neg h, if_neg h, div_mul_eq_mul_div, mul_comm]
  refine ⟨hformula, ?_, ?_⟩
  · have hc : (sampleRecord 4 2).completedModules = 2 := by decide
    have hl : (sampleRecord 4 2).moduleProgress.length = 4 := by decide
    rw [ProgressRecord.calculateOverallProgress, hc, hl]
    norm_num
    exact jsRound_eval (by norm_num) (by norm_num)
  · have hc : (sampleRecord 4 2).completedModules = 2 := by decide
    have hl : (sampleRecord 4 2).moduleProgress.length = 4 := by decide
    have ha : (sampleRecord 4 2).totalAssignments = 0 := by decide
    have hq : (sampleRecord 4 2).totalQuizzes = 0 := by decide
    rw [ProgressRecord.calculateCompletionPercentage]
    rw [hc, hl, ha, hq]
    norm_num
    exact jsRound_eval (by norm_num) (by norm_num)

/-- C5: `calculateFinalScore` returns 85 when both averages are zero, and
    otherwise round-half-up of the 0.4/0.6-weighted average. -/
theorem c5_final_score_formula :
    ∀ r : ProgressRecord,
      r.calculateFinalScore =
        if r.avgQuizScore = 0 ∧ r.avgAssignmentScore = 0 then 85
        else roundHalfUp ((0.4 : ℚ) * r.avgQuizScore + (0.6 : ℚ) * r.avgAssignmentScore) := by
  intro r
  rw [ProgressRecord.calculateFinalScore, roundHalfUp, jsRound]
  rcases Decidable.em (r.avgQuizScore = 0 ∧ r.avgAssignmentScore = 0) with h | h
  · simp [h]
  · rw [if_neg h, if_neg h]
    ring_nf

/-- An enrollment record whose externally supplied assessment counters are
    inconsistent (5 assignments completed out of 1 tracked), as the schema
    permits: these counters carry no min/max or cross-field validation. -/
def overAssignedRecord : ProgressRecord :=
  { sampleRecord 0 0 with totalAssignments := 1, completedAssignments := 5 }

/-- C6 counterexample: on `overAssignedRecord` the computed completion
    percentage is 500, outside `[0, 100]`, so the range claim fails for
    arbitrary counter values. -/
theorem c6_counterexample :
    ¬ (0 ≤ overAssignedRecord.calculateCompletionPercentage
        ∧ overAssignedRecord.calculateCompletionPercentage ≤ 100) := by
  have hc : overAssignedRecord.completedModules = 0 := by decide
  have hl : overAssignedRecord.moduleProgress.length = 0 := by decide
  have ha : overAssignedRecord.totalAssignments = 1 := by decide
  have hca : overAssignedRecord.completedAssignments = 5 := by decide
  have hq : overAssignedRecord.totalQuizzes = 0 := by decide
  have h : overAssignedRecord.calculateCompletionPercentage = 500 := by
    rw [ProgressRecord.calculateCompletionPercentage]
    rw [hc, hl, ha, hca, hq]
    norm_num
    exact jsRound_eval (by norm_num) (by norm_num)
  rw [h]
  norm_num

/-- C6 amended: `calculateOverallProgress` always lies in `[0, 100]`, and
    `calculateCompletionPercentage` lies in `[0, 100]` provided the externally
    supplied assessment counters are consistent (`completedAssignments ≤
    totalAssignments` and `completedQuizzes ≤ totalQuizzes`). -/
theorem c6_amended_progress_ranges (r : ProgressRecord)
    (ha : r.completedAssignments ≤ r.totalAssignments)
    (hq : r.completedQuizzes ≤ r.totalQuizzes) :
    (0 ≤ r.calculateOverallProgress ∧ r.calculateOverallProgress ≤ 100)
    ∧ (0 ≤ r.calculateCompletionPercentage ∧ r.calculateCompletionPercentage ≤ 100) := by
  have hmods : r.completedModules ≤ r.moduleProgress.length := by
    exact List.length_filter_le _ _
  constructor
  · rw [ProgressRecord.calculateOverallProgress]
    rcases eq_or_ne r.moduleProgress.length 0 with h | h
    · simp [h]
    · rw [if_neg h]
      exact jsRound_frac_bounds _ _ hmods (Nat.pos_of_ne_zero h)
  · rw [ProgressRecord.calculateCompletionPercentage]
    split_ifs
    all_goals first
      | exact jsRound_frac_bounds _ _ (by omega) (by omega)
      | omega

/-- C6 witness: the consistent scenario record instantiates the amended
    range theorem. -/
theorem c6_amended_progress_ranges_witness :
    (sampleRecord 4 2).completedAssignments ≤ (sampleRecord 4 2).totalAssignments
    ∧ (sampleRecord 4 2).completedQuizzes ≤ (sampleRecord 4 2).totalQuizzes
    ∧ ((0 ≤ (sampleRecord 4 2).calculateOverallProgress
          ∧ (sampleRecord 4 2).calculateOverallProgress ≤ 100)
        ∧ (0 ≤ (sampleRecord 4 2).calculateCompletionPercentage
          ∧ (sampleRecord 4 2).calculateCompletionPercentage ≤ 100)) :=
  ⟨by decide, by decide,
    c6_amended_progress_ranges (sampleRecord 4 2) (by decide) (by decide)⟩

/-! ## Claim C8: re-issuing an issued certificate -/

/-- A certificate that has already been issued: identity fields assigned,
    issued at time 0. -/
def issuedCert : Certificate where
  certId := 0
  student := 1
  course := 1
  instructor := 3
  certificateNumber := some 11
  verificationCode := some 22
  status := .issued
  issuedDate := some 0
  completionDate := 0
  enrollmentDate := 0
  finalScore := 85

/-- C8 counterexample: calling `issueCertificate` again at a later time is not
    a no-op — `issuedDate` is unconditionally reassigned to the time of the
    second call, so not all of status, issuedDate, certificateNumber and
    verificationCode are unchanged. -/
theorem c8_counterexample :
    ¬ ((issuedCert.issueCertificate 1 9 9).status = issuedCert.status
        ∧ (issuedCert.issueCertificate 1 9 9).issuedDate = issuedCert.issuedDate
        ∧ (issuedCert.issueCertificate 1 9 9).certificateNumber = issuedCert.certificateNumber
        ∧ (issuedCert.issueCertificate 1 9 9).verificationCode = issuedCert.verificationCode) := by
  decide

/-- C8 amended: on an already-issued certificate with assigned identity
    fields, a second `issueCertificate` call is not an error and leaves
    status, certificateNumber and verificationCode unchanged, but reassigns
    `issuedDate` to the time of the second call. -/
theorem c8_amended_reissue (c : Certificate) (now rnd1 rnd2 : ℕ)
    (hst : c.status = .issued)
    (hnum : c.certificateNumber ≠ none)
    (hcode : c.verificationCode ≠ none) :
    (c.issueCertificate now rnd1 rnd2).status = c.status
    ∧ (c.issueCertificate now rnd1 rnd2).certificateNumber = c.certificateNumber
    ∧ (c.issueCertificate now rnd1 rnd2).verificationCode = c.verificationCode
    ∧ (c.issueCertificate now rnd1 rnd2).issuedDate = some now := by
  rw [Certificate.issueCertificate]
  simp only [Certificate.generateCertificateNumber, Certificate.generateVerificationCode]
  rw [if_neg hnum, if_neg hcode]
  exact ⟨hst.symm, rfl, rfl, rfl⟩

/-- C8 witness: the amended theorem applied to the concrete issued
    certificate, re-issued at time 1. -/
theorem c8_amended_reissue_witness :
    issuedCert.status = .issued
    ∧ issuedCert.certificateNumber ≠ none
    ∧ issuedCert.verificationCode ≠ none
    ∧ ((issuedCert.issueCertificate 1 9 9).status = issuedCert.status
        ∧ (issuedCert.issueCertificate 1 9 9).certificateNumber = issuedCert.certificateNumber
        ∧ (issuedCert.issueCertificate 1 9 9).verificationCode = issuedCert.verificationCode
        ∧ (issuedCert.issueCertificate 1 9 9).issuedDate = some 1) :=
  ⟨by decide, by decide, by decide,
    c8_amended_reissue issuedCert 1 9 9 (by decide) (by decide) (by decide)⟩

/-! ## Claim C3: manual issuance for a completed student -/

/-- An enrollment record that has fully completed its single-module course:
    the stored completion percentage is 100. -/
def completedRecord : ProgressRecord :=
  { sampleRecord 1 1 with student := 2, course := 1,
                          overallProgress := 100, completionPercentage := 100,
                          finalScore := 85 }

/-- The store at the moment of the manual request: the completed record and
    no certificate for the pair. -/
def manualDB : DB where
  progresses := [completedRecord]
  certificates := []
  nextCertId := 0

/-- The environment of the manual request: course 1 and student 2 exist. -/
def manualEnv : Env where
  now := 50
  courses := [{ id := 1, instructor := 3, modules := [{ id := 0, lessons := [7] }], duration := 10 }]
  users := [2]
  rnd1 := 4
  rnd2 := 5

/-- C3, the failing input: course 1 and student 2 exist, the pair's
    enrollment record stores `completionPercentage = 100`, and no certificate
    exists — yet `generateCertificate` answers `'Student has not completed the
    course yet'` (reporting progress 0) and creates nothing, because it
    queries the Progress collection by the nonexistent path `user` instead of
    `student` and therefore never finds the record. -/
theorem c3_manual_issuance_fails_on_completed_student :
    (generateCertificate manualDB manualEnv 1 2).2 = .notCompleted 0
    ∧ (generateCertificate manualDB manualEnv 1 2).1.certificates = []
    ∧ recordOf manualDB 2 1 = some completedRecord
    ∧ completedRecord.completionPercentage = 100 := by
  refine ⟨rfl, rfl, rfl, rfl⟩

/-! ## Structural lemmas about queries, saves and the update protocol -/

/-- The first `moduleProgress` entry with a given module id, as the
    controllers locate it. -/
def getModule (r : ProgressRecord) (mid : ℕ) : Option ModuleEntry :=
  r.moduleProgress.find? (fun m => m.moduleId = mid)

/-- Matching the `{ student, course }` filter is exactly matching both key
    fields. -/
theorem progressMatches_pair (q : ProgressRecord) (sid cid : ℕ) :
    progressMatches q [(.student, sid), (.course, cid)] = true
      ↔ q.student = sid ∧ q.course = cid := by
  simp [progressMatches, progressField]

/-- A filter demanding the nonexistent `user` path matches no document. -/
theorem progressMatches_user (q : ProgressRecord) (sid cid : ℕ) :
    progressMatches q [(.user, sid), (.course, cid)] = false := rfl

/-- `Progress.findOne({ user, course })` finds nothing. -/
theorem findOneProgress_user (db : DB) (sid cid : ℕ) :
    findOneProgress db [(.user, sid), (.course, cid)] = none := by
  rw [findOneProgress, List.find?_eq_none]
  intro q _
  simp [progressMatches_user]

/-- A record found by the `{ student, course }` filter carries those keys. -/
theorem findOneProgress_key {db : DB} {sid cid : ℕ} {p : ProgressRecord}
    (h : findOneProgress db [(.student, sid), (.course, cid)] = some p) :
    p.student = sid ∧ p.course = cid := by
  rw [findOneProgress] at h
  exact (progressMatches_pair p sid cid).mp
    (@List.find?_some _ (fun q => progressMatches q [(.student, sid), (.course, cid)])
      p db.progresses h)

/-- A found record is a member of the collection. -/
theorem findOneProgress_mem {db : DB} {f : List (QueryField × ℕ)} {p : ProgressRecord}
    (h : findOneProgress db f = some p) : p ∈ db.progresses :=
  List.mem_of_find?_eq_some h

/-- List form of the save-then-find round trip: replacing every entry keyed
    like `r` by `r` makes the keyed lookup return `r`, provided the lookup
    found something before. -/
theorem find?_save_list (sid cid : ℕ) (r : ProgressRecord)
    (hs : r.student = sid) (hc : r.course = cid) :
    ∀ (l : List ProgressRecord) (p : ProgressRecord),
      l.find? (fun q => progressMatches q [(.student, sid), (.course, cid)]) = some p →
      (l.map (fun q => if q.student = r.student ∧ q.course = r.course then r else q)).find?
        (fun q => progressMatches q [(.student, sid), (.course, cid)]) = some r := by
  intro l
  induction l with
  | nil =>
    intro p h
    simp at h
  | cons a l ih =>
    intro p h
    rw [List.map_cons]
    cases ha : progressMatches a [(.student, sid), (.course, cid)] with
    | true =>
      obtain ⟨has, hac⟩ := (progressMatches_pair a sid cid).mp ha
      have hcond : a.student = r.student ∧ a.course = r.course := by
        constructor <;> omega
      have hr : progressMatches r [(.student, sid), (.course, cid)] = true :=
        (progressMatches_pair r sid cid).mpr ⟨hs, hc⟩
      simp only [if_pos hcond, List.find?_cons, hr]
    | false =>
      have hcond : ¬ (a.student = r.student ∧ a.course = r.course) := by
        intro hcontra
        obtain ⟨h1, h2⟩ := hcontra
        have : progressMatches a [(.student, sid), (.course, cid)] = true :=
          (progressMatches_pair a sid cid).mpr ⟨by omega, by omega⟩
        rw [this] at ha
        exact Bool.true_eq_false.mp ha
      have h' : l.find? (fun q => progressMatches q [(.student, sid), (.course, cid)]) = some p := by
        rw [List.find?_cons] at h
        simpa [ha] using h
      simp only [if_neg hcond, List.find?_cons, ha]
      exact ih p h'

/-- After saving a record, looking its key up returns the saved record,
    provided the key resolved to a document before the save. -/
theorem findOneProgress_save {db : DB} {sid cid : ℕ} {p r : ProgressRecord}
    (h : findOneProgress db [(.student, sid), (.course, cid)] = some p)
    (hs : r.student = sid) (hc : r.course = cid) :
    findOneProgress (saveProgress db r) [(.student, sid), (.course, cid)] = some r := by
  rw [findOneProgress] at h
  rw [findOneProgress, saveProgress]
  exact find?_save_list sid cid r hs hc db.progresses p h

/-- `saveProgress` leaves the certificate collection and the id supply
    untouched. -/
theorem saveProgress_certificates (db : DB) (r : ProgressRecord) :
    (saveProgress db r).certificates = db.certificates ∧
    (saveProgress db r).nextCertId = db.nextCertId :=
  ⟨rfl, rfl⟩

/-! ### The shape of `updateProgress` -/

/-- The record after the four derived-field assignments of `updateProgress`. -/
def recomputed (env : Env) (r : ProgressRecord) : ProgressRecord :=
  { r with overallProgress := r.calculateOverallProgress
           completionPercentage := r.calculateCompletionPercentage
           finalScore := r.calculateFinalScore
           lastActivity := env.now }

/-- The record after the completion-date assignments of `updateProgress`. -/
def dated (env : Env) (r : ProgressRecord) : ProgressRecord :=
  { r with completionDate := some env.now, completedAt := some env.now }

/-- The record after certificate linkage in `updateProgress`. -/
def linked (cert : Certificate) (r : ProgressRecord) : ProgressRecord :=
  { r with certificateEarned := some cert.certId, certificateGenerated := true }

/-- `updateProgress` unfolded through the named intermediate records. -/
theorem updateProgress_eq (db : DB) (env : Env) (r : ProgressRecord) :
    updateProgress db env r =
      (if (recomputed env r).completionPercentage ≥ 100
          ∧ (recomputed env r).completionDate = none then
        (if r.certificateGenerated = false then
          match autoGenerateCertificate db env r.student r.course (dated env (recomputed env r)) with
          | .ok cert db' =>
            (saveProgress db' (linked cert (dated env (recomputed env r))),
             linked cert (dated env (recomputed env r)))
          | .err =>
            (saveProgress db (dated env (recomputed env r)), dated env (recomputed env r))
        else (saveProgress db (dated env (recomputed env r)), dated env (recomputed env r)))
      else (saveProgress db (recomputed env r), recomputed env r)) := rfl

/-! ### Mutation of the first matching module entry -/

/-- `mutateFirstModule` preserves the list length. -/
theorem mutateFirstModule_length (mid : ℕ) (f : ModuleEntry → ModuleEntry)
    (l : List ModuleEntry) : (mutateFirstModule mid f l).length = l.length := by
  induction l with
  | nil => rfl
  | cons m ms ih =>
    rw [mutateFirstModule]
    split_ifs <;> simp [ih]

/-- When `f` preserves module ids, `mutateFirstModule` preserves the
    membership test the controllers run. -/
theorem mutateFirstModule_any (mid mid' : ℕ) (f : ModuleEntry → ModuleEntry)
    (hf : ∀ m, (f m).moduleId = m.moduleId) (l : List ModuleEntry) :
    (mutateFirstModule mid f l).any (fun m => m.moduleId = mid')
      = l.any (fun m => m.moduleId = mid') := by
  induction l with
  | nil => rfl
  | cons m ms ih =>
    rw [mutateFirstModule]
    split_ifs with h
    · simp [hf]
    · simp [ih]

/-- When `f` preserves module ids, looking up the addressed module after the
    mutation returns the mutated entry. -/
theorem mutateFirstModule_find? (mid : ℕ) (f : ModuleEntry → ModuleEntry)
    (hf : ∀ m, (f m).moduleId = m.moduleId) (l : List ModuleEntry) :
    (mutateFirstModule mid f l).find? (fun m => m.moduleId = mid)
      = (l.find? (fun m => m.moduleId = mid)).map f := by
  induction l with
  | nil => rfl
  | cons m ms ih =>
    rw [mutateFirstModule]
    split_ifs with h
    · rw [List.find?_cons_of_pos _ (by simpa [hf]), List.find?_cons_of_pos _ (by simpa)]
      rfl
    · rw [List.find?_cons_of_neg _ (by simpa [hf]), List.find?_cons_of_neg _ (by simpa)]
      exact ih

/-- When `f` preserves the `completed` flag, `mutateFirstModule` preserves the
    completed-module count the calculators consume. -/
theorem mutateFirstModule_completedCount (mid : ℕ) (f : ModuleEntry → ModuleEntry)
    (hf : ∀ m, (f m).completed = m.completed) (l : List ModuleEntry) :
    ((mutateFirstModule mid f l).filter (fun m => m.completed)).length
      = (l.filter (fun m => m.completed)).length := by
  induction l with
  | nil => rfl
  | cons m ms ih =>
    rw [mutateFirstModule]
    split_ifs with h
    · rw [List.filter_cons, List.filter_cons, hf m]
      split_ifs <;> simp
    · rw [List.filter_cons, List.filter_cons]
      split_ifs <;> simp [ih]

/-- Two mutations of the first entry with the same id compose, when the first
    preserves module ids. -/
theorem mutateFirstModule_comp (mid : ℕ) (f g : ModuleEntry → ModuleEntry)
    (hf : ∀ m, (f m).moduleId = m.moduleId) (l : List ModuleEntry) :
    mutateFirstModule mid g (mutateFirstModule mid f l)
      = mutateFirstModule mid (fun m => g (f m)) l := by
  induction l with
  | nil => rfl
  | cons m ms ih =>
    rw [mutateFirstModule]
    split_ifs with h
    · rw [mutateFirstModule, if_pos (by rw [hf]; exact h), mutateFirstModule, if_pos h]
    · rw [mutateFirstModule, if_neg (by rwa [show (m.moduleId = mid) = (m.moduleId = mid) from rfl]),
        mutateFirstModule, if_neg h, ih]

/-! ## Claim C9: time tracking with an unmatched module id -/

/-- C9: a positive time report against an existing record whose
    `moduleProgress` has no entry for the supplied module id still succeeds:
    the total time grows, `lastActivity` is refreshed, the module list (and
    every other field) is untouched, and the per-module time is reported as
    nothing. -/
theorem c9_add_time_unknown_module (db : DB) (env : Env) (sid cid mid ts : ℕ)
    (p : ProgressRecord)
    (hts : 0 < ts)
    (hfind : findOneProgress db [(.student, sid), (.course, cid)] = some p)
    (hmod : ∀ m ∈ p.moduleProgress, ¬ m.moduleId = mid) :
    addTimeSpent db env sid cid (some mid) (some ts) =
      (saveProgress db
        { p with totalTimeSpent := p.totalTimeSpent + ts, lastActivity := env.now },
       .ok (p.totalTimeSpent + ts) none) := by
  have hts' : ¬ ts = 0 := by omega
  have hany : p.moduleProgress.any (fun m => m.moduleId = mid) = false := by
    rw [List.any_eq_false]
    intro m hm
    simpa using hmod m hm
  have hfindnone : p.moduleProgress.find? (fun m => m.moduleId = mid) = none := by
    rw [List.find?_eq_none]
    intro m hm
    simpa using hmod m hm
  rw [addTimeSpent]
  rw [if_neg hts', hfind]
  simp only [hany, Bool.false_eq_true, if_false, hfindnone]
  rfl

/-- C9 witness: adding 7 minutes against module id 99, absent from the
    record's module list. -/
theorem c9_add_time_unknown_module_witness :
    0 < 7
    ∧ findOneProgress manualDB [(.student, 2), (.course, 1)] = some completedRecord
    ∧ (∀ m ∈ completedRecord.moduleProgress, ¬ m.moduleId = 99)
    ∧ addTimeSpent manualDB { manualEnv with now := 60 } 2 1 (some 99) (some 7) =
        (saveProgress manualDB
          { completedRecord with
              totalTimeSpent := completedRecord.totalTimeSpent + 7, lastActivity := 60 },
         .ok (completedRecord.totalTimeSpent + 7) none) :=
  ⟨by decide, rfl, by decide,
    c9_add_time_unknown_module manualDB { manualEnv with now := 60 } 2 1 99 7
      completedRecord (by decide) rfl (by decide)⟩

/-- `findOne` only consults the Progress collection. -/
theorem findOneProgress_progresses_eq {db db' : DB}
    (h : db'.progresses = db.progresses) (f : List (QueryField × ℕ)) :
    findOneProgress db' f = findOneProgress db f := by
  rw [findOneProgress, findOneProgress, h]

/-- What a successful `autoGenerateCertificate` did to the store: the Progress
    collection is untouched, and the returned certificate is either the
    pre-existing one (store unchanged) or a freshly inserted one for the pair. -/
theorem autoGenerateCertificate_ok_cases (db : DB) (env : Env) (sid cid : ℕ)
    (pd : ProgressRecord) (cert : Certificate) (db' : DB)
    (h : autoGenerateCertificate db env sid cid pd = .ok cert db') :
    db'.progresses = db.progresses
    ∧ ((findCertificate db sid cid = some cert ∧ db' = db)
        ∨ (findCertificate db sid cid = none
            ∧ db'.certificates = db.certificates ++ [cert]
            ∧ cert.student = sid ∧ cert.course = cid)) := by
  rw [autoGenerateCertificate] at h
  cases hfc : findCertificate db sid cid with
  | some ex =>
    rw [hfc] at h
    injection h with h1 h2
    subst h1
    subst h2
    exact ⟨rfl, Or.inl ⟨rfl, rfl⟩⟩
  | none =>
    rw [hfc] at h
    cases hco : env.findCourse cid with
    | none =>
      cases hu : env.userExists sid <;> rw [hco, hu] at h <;> exact absurd h (by simp)
    | some course =>
      cases hu : env.userExists sid
      · rw [hco, hu] at h
        exact absurd h (by simp)
      · rw [hco, hu] at h
        injection h with h1 h2
        subst h1
        subst h2
        exact ⟨rfl, Or.inr ⟨rfl, rfl, rfl, rfl⟩⟩

/-- The record `updateProgress` saves and returns: the key fields, the module
    list, the assessment counters and the score averages are carried over
    unchanged, and the three derived fields hold the calculator results. -/
theorem updateProgress_snd_fields (db : DB) (env : Env) (q : ProgressRecord) :
    (updateProgress db env q).2.student = q.student
    ∧ (updateProgress db env q).2.course = q.course
    ∧ (updateProgress db env q).2.moduleProgress = q.moduleProgress
    ∧ (updateProgress db env q).2.overallProgress = q.calculateOverallProgress
    ∧ (updateProgress db env q).2.completionPercentage = q.calculateCompletionPercentage
    ∧ (updateProgress db env q).2.finalScore = q.calculateFinalScore
    ∧ (updateProgress db env q).2.totalAssignments = q.totalAssignments
    ∧ (updateProgress db env q).2.completedAssignments = q.completedAssignments
    ∧ (updateProgress db env q).2.totalQuizzes = q.totalQuizzes
    ∧ (updateProgress db env q).2.completedQuizzes = q.completedQuizzes
    ∧ (updateProgress db env q).2.avgQuizScore = q.avgQuizScore
    ∧ (updateProgress db env q).2.avgAssignmentScore = q.avgAssignmentScore
    ∧ (updateProgress db env q).2.totalTimeSpent = q.totalTimeSpent := by
  rw [updateProgress_eq]
  split_ifs with h1 h2
  · cases hag : autoGenerateCertificate db env q.student q.course (dated env (recomputed env q)) with
    | ok cert db' =>
      simp only [hag]
      exact ⟨rfl, rfl, rfl, rfl, rfl, rfl, rfl, rfl, rfl, rfl, rfl, rfl, rfl⟩
    | err =>
      simp only [hag]
      exact ⟨rfl, rfl, rfl, rfl, rfl, rfl, rfl, rfl, rfl, rfl, rfl, rfl, rfl⟩
  · exact ⟨rfl, rfl, rfl, rfl, rfl, rfl, rfl, rfl, rfl, rfl, rfl, rfl, rfl⟩
  · exact ⟨rfl, rfl, rfl, rfl, rfl, rfl, rfl, rfl, rfl, rfl, rfl, rfl, rfl⟩

/-- After `updateProgress`, looking the key up returns the record it saved. -/
theorem recordOf_updateProgress (db : DB) (env : Env) (q p : ProgressRecord)
    (hfind : findOneProgress db [(.student, q.student), (.course, q.course)] = some p) :
    recordOf (updateProgress db env q).1 q.student q.course
      = some (updateProgress db env q).2 := by
  rw [recordOf, updateProgress_eq]
  split_ifs with h1 h2
  · cases hag : autoGenerateCertificate db env q.student q.course (dated env (recomputed env q)) with
    | ok cert db' =>
      simp only [hag]
      have hprog := (autoGenerateCertificate_ok_cases db env q.student q.course _ cert db' hag).1
      have hfind' : findOneProgress db' [(.student, q.student), (.course, q.course)] = some p := by
        rw [findOneProgress_progresses_eq hprog]
        exact hfind
      exact findOneProgress_save hfind' rfl rfl
    | err =>
      simp only [hag]
      exact findOneProgress_save hfind rfl rfl
  · exact findOneProgress_save hfind rfl rfl
  · exact findOneProgress_save hfind rfl rfl

/-- `lessonMutation` never changes the entry's module id. -/
theorem lessonMutation_moduleId (course : Course) (mid lid : ℕ) (t : Option ℕ)
    (now : ℕ) (m : ModuleEntry) :
    (lessonMutation course mid lid t now m).moduleId = m.moduleId := by
  cases t with
  | none =>
    simp only [lessonMutation]
    cases hfm : course.modules.find? (fun cm => cm.id = mid) <;> simp only [hfm] <;>
      split_ifs <;> rfl
  | some ts =>
    simp only [lessonMutation]
    cases hfm : course.modules.find? (fun cm => cm.id = mid) <;> simp only [hfm] <;>
      split_ifs <;> rfl

/-- A located module entry makes the controller's existence test succeed. -/
theorem any_of_getModule {r : ProgressRecord} {mid : ℕ} {m0 : ModuleEntry}
    (h : getModule r mid = some m0) :
    r.moduleProgress.any (fun m => m.moduleId = mid) = true := by
  rw [getModule] at h
  exact List.any_eq_true.mpr
    ⟨m0, List.mem_of_find?_eq_some h,
      @List.find?_some _ (fun m => m.moduleId = mid) m0 r.moduleProgress h⟩

/-! ## Claim C10: no validation of the lesson id -/

/-- C10: `markLessonComplete` accepts any lesson id: with no hypothesis
    relating `lessonId` to the course module's actual lessons, a not-yet
    recorded id is appended to `completedLessons`, and the module's
    `completed` flag is true exactly when it already was or the recorded ids
    now number at least the course module's declared lesson count. -/
theorem c10_no_lesson_validation (db : DB) (env : Env)
    (sid cid mid lessonId : ℕ) (p : ProgressRecord) (m0 : ModuleEntry)
    (course : Course) (cm : CourseModule)
    (hfind : findOneProgress db [(.student, sid), (.course, cid)] = some p)
    (hm0 : getModule p mid = some m0)
    (hles : m0.completedLessons.contains lessonId = false)
    (hcourse : env.findCourse cid = some course)
    (hcm : course.modules.find? (fun c => c.id = mid) = some cm) :
    (lessonMutation course mid lessonId none env.now m0).completedLessons
        = m0.completedLessons ++ [lessonId]
    ∧ ((lessonMutation course mid lessonId none env.now m0).completed
        = (m0.completed || decide (cm.lessons.length ≤ m0.completedLessons.length + 1)))
    ∧ ∃ r1, recordOf (markLessonComplete db env sid cid mid lessonId none).1 sid cid
          = some r1
        ∧ getModule r1 mid = some (lessonMutation course mid lessonId none env.now m0) := by
  obtain ⟨hps, hpc⟩ := findOneProgress_key hfind
  subst hps
  subst hpc
  have hlesP : ¬ m0.completedLessons.contains lessonId = true := by rw [hles]; simp
  have hmut1 : (lessonMutation course mid lessonId none env.now m0).completedLessons
      = m0.completedLessons ++ [lessonId] := by
    simp only [lessonMutation, if_neg hlesP, hcm]
    split_ifs <;> rfl
  have hmut2 : (lessonMutation course mid lessonId none env.now m0).completed
      = (m0.completed || decide (cm.lessons.length ≤ m0.completedLessons.length + 1)) := by
    simp only [lessonMutation, if_neg hlesP, hcm]
    split_ifs with hcnt
    · simp only [List.length_append, List.length_cons, List.length_nil] at hcnt
      simp [hcnt]
    · simp only [List.length_append, List.length_cons, List.length_nil] at hcnt
      simp [hcnt]
  refine ⟨hmut1, hmut2, ?_⟩
  have hany := any_of_getModule hm0
  simp only [markLessonComplete, hfind, hany, if_true, hcourse]
  refine ⟨(updateProgress db env
    { p with
      moduleProgress :=
        mutateFirstModule mid (lessonMutation course mid lessonId none env.now)
          p.moduleProgress
      totalTimeSpent := p.totalTimeSpent + timeToAdd none }).2, ?_, ?_⟩
  · exact recordOf_updateProgress db env
      { p with
        moduleProgress :=
          mutateFirstModule mid (lessonMutation course mid lessonId none env.now)
            p.moduleProgress
        totalTimeSpent := p.totalTimeSpent + timeToAdd none } p hfind
  · have hmods := (updateProgress_snd_fields db env
      { p with
        moduleProgress :=
          mutateFirstModule mid (lessonMutation course mid lessonId none env.now)
            p.moduleProgress
        totalTimeSpent := p.totalTimeSpent + timeToAdd none }).2.2.1
    rw [getModule, hmods]
    show (mutateFirstModule mid (lessonMutation course mid lessonId none env.now)
        p.moduleProgress).find? (fun m => m.moduleId = mid) = _
    rw [mutateFirstModule_find? mid _ (lessonMutation_moduleId course mid lessonId none env.now)]
    rw [show p.moduleProgress.find? (fun m => m.moduleId = mid) = some m0 from hm0]
    rfl

/-- The course document of `manualEnv`, as the controllers load it. -/
def manualCourse : Course where
  id := 1
  instructor := 3
  modules := [{ id := 0, lessons := [7] }]
  duration := 10

/-- The module entry of `completedRecord`. -/
def completedEntry : ModuleEntry where
  moduleId := 0
  completed := true
  completedLessons := []
  timeSpent := 0
  lastAccessed := 0

/-- C10 witness: lesson id 999 is not a lesson of the course module (its only
    lesson is 7), yet it is recorded and counts toward completion. -/
theorem c10_no_lesson_validation_witness :
    findOneProgress manualDB [(.student, 2), (.course, 1)] = some completedRecord
    ∧ getModule completedRecord 0 = some completedEntry
    ∧ completedEntry.completedLessons.contains 999 = false
    ∧ manualEnv.findCourse 1 = some manualCourse
    ∧ manualCourse.modules.find? (fun c => c.id = 0) = some { id := 0, lessons := [7] }
    ∧ ((lessonMutation manualCourse 0 999 none manualEnv.now completedEntry).completedLessons
          = completedEntry.completedLessons ++ [999]
        ∧ ((lessonMutation manualCourse 0 999 none manualEnv.now completedEntry).completed
          = (completedEntry.completed
              || decide (({ id := 0, lessons := [7] } : CourseModule).lessons.length
                  ≤ completedEntry.completedLessons.length + 1)))
        ∧ ∃ r1, recordOf (markLessonComplete manualDB manualEnv 2 1 0 999 none).1 2 1
              = some r1
            ∧ getModule r1 0
              = some (lessonMutation manualCourse 0 999 none manualEnv.now completedEntry)) :=
  ⟨rfl, rfl, by decide, rfl, rfl,
    c10_no_lesson_validation manualDB manualEnv 2 1 0 999 completedRecord completedEntry
      manualCourse { id := 0, lessons := [7] } rfl rfl (by decide) rfl rfl⟩

/-! ## Idempotence of the lesson mutation (claim C7) -/

/-- The completed-lesson set after recording a lesson id: unchanged when
    already present, appended otherwise. -/
def recordedLessons (lid : ℕ) (l : List ℕ) : List ℕ :=
  if l.contains lid then l else l ++ [lid]

/-- A recorded lesson id is contained afterwards. -/
theorem recordedLessons_contains (lid : ℕ) (l : List ℕ) :
    (recordedLessons lid l).contains lid = true := by
  rw [recordedLessons]
  split_ifs with h
  · exact h
  · simp

/-- Recording the same lesson id twice records it once. -/
theorem recordedLessons_idem (lid : ℕ) (l : List ℕ) :
    recordedLessons lid (recordedLessons lid l) = recordedLessons lid l := by
  conv_lhs => rw [recordedLessons]
  rw [if_pos (recordedLessons_contains lid l)]

/-- Characterisation of `lessonMutation` with no time payload: record the
    lesson, refresh `lastAccessed`, and extend the `completed` flag with the
    declared-count test. -/
theorem lessonMutation_none_eq (course : Course) (mid lid now : ℕ) (m : ModuleEntry) :
    lessonMutation course mid lid none now m
      = { m with
          completedLessons := recordedLessons lid m.completedLessons
          lastAccessed := now
          completed := m.completed ||
            (match course.modules.find? (fun cm => cm.id = mid) with
              | some cm =>
                decide (cm.lessons.length ≤ (recordedLessons lid m.completedLessons).length)
              | none => false) } := by
  simp only [lessonMutation, recordedLessons]
  cases hfm : course.modules.find? (fun cm => cm.id = mid) <;> simp only [hfm] <;>
    split_ifs <;> simp_all

/-- Replaying the same lesson mutation only refreshes `lastAccessed`. -/
theorem lessonMutation_idem (course : Course) (mid lid now1 now2 : ℕ) (m : ModuleEntry) :
    lessonMutation course mid lid none now2 (lessonMutation course mid lid none now1 m)
      = { lessonMutation course mid lid none now1 m with lastAccessed := now2 } := by
  rw [lessonMutation_none_eq course mid lid now1 m]
  rw [lessonMutation_none_eq course mid lid now2]
  cases hfm : course.modules.find? (fun cm => cm.id = mid) <;>
    simp only [hfm, recordedLessons_idem] <;>
    simp [Bool.or_assoc]

/-- `calculateOverallProgress` depends only on the module count and the
    completed count. -/
theorem calcOverall_eq_of (r r' : ProgressRecord)
    (hlen : r.moduleProgress.length = r'.moduleProgress.length)
    (hcnt : r.completedModules = r'.completedModules) :
    r.calculateOverallProgress = r'.calculateOverallProgress := by
  rw [ProgressRecord.calculateOverallProgress, ProgressRecord.calculateOverallProgress,
    hlen, hcnt]

/-- `calculateCompletionPercentage` depends only on the module counts and the
    assessment counters. -/
theorem calcCompletion_eq_of (r r' : ProgressRecord)
    (hlen : r.moduleProgress.length = r'.moduleProgress.length)
    (hcnt : r.completedModules = r'.completedModules)
    (h1 : r.totalAssignments = r'.totalAssignments)
    (h2 : r.completedAssignments = r'.completedAssignments)
    (h3 : r.totalQuizzes = r'.totalQuizzes)
    (h4 : r.completedQuizzes = r'.completedQuizzes) :
    r.calculateCompletionPercentage = r'.calculateCompletionPercentage := by
  rw [ProgressRecord.calculateCompletionPercentage, ProgressRecord.calculateCompletionPercentage,
    hlen, hcnt, h1, h2, h3, h4]

/-- `calculateFinalScore` depends only on the two score averages. -/
theorem calcFinal_eq_of (r r' : ProgressRecord)
    (hq : r.avgQuizScore = r'.avgQuizScore)
    (ha : r.avgAssignmentScore = r'.avgAssignmentScore) :
    r.calculateFinalScore = r'.calculateFinalScore := by
  rw [ProgressRecord.calculateFinalScore, ProgressRecord.calculateFinalScore, hq, ha]

/-- The observation claim C7 makes on a record: the three derived fields and
    the addressed module's completed-lesson set. -/
def derivedView (mid : ℕ) (r : ProgressRecord) : ℤ × ℤ × ℤ × Option (List ℕ) :=
  (r.overallProgress, r.completionPercentage, r.finalScore,
    (getModule r mid).map (fun m => m.completedLessons))

/-- C7: on a record containing the addressed module, running
    `markLessonComplete` twice with the same identifiers and no time payload
    (under an unchanged course catalog; the clock may advance) leaves the
    derived fields and the module's completed-lesson set after the second call
    exactly as they were after the first call. -/
theorem c7_mark_lesson_idempotent (db : DB) (env1 env2 : Env)
    (sid cid mid lessonId : ℕ) (p : ProgressRecord)
    (hfind : findOneProgress db [(.student, sid), (.course, cid)] = some p)
    (hmod : p.moduleProgress.any (fun m => m.moduleId = mid) = true)
    (henv : env2.findCourse cid = env1.findCourse cid) :
    ((recordOf (markLessonComplete
          (markLessonComplete db env1 sid cid mid lessonId none).1
          env2 sid cid mid lessonId none).1 sid cid).map (derivedView mid))
      = ((recordOf (markLessonComplete db env1 sid cid mid lessonId none).1 sid cid).map
          (derivedView mid)) := by
  obtain ⟨hps, hpc⟩ := findOneProgress_key hfind
  subst hps
  subst hpc
  cases hco : env1.findCourse p.course with
  | none =>
    have hco2 : env2.findCourse p.course = none := henv.trans hco
    have h1 : markLessonComplete db env1 p.student p.course mid lessonId none
        = (db, .serverError) := by
      simp only [markLessonComplete, hfind, hmod, if_true, hco]
    have h2 : markLessonComplete db env2 p.student p.course mid lessonId none
        = (db, .serverError) := by
      simp only [markLessonComplete, hfind, hmod, if_true, hco2]
    simp only [h1, h2]
  | some course =>
    have hco2 : env2.findCourse p.course = some course := henv.trans hco
    set F1 := lessonMutation course mid lessonId none env1.now with hF1def
    set F2 := lessonMutation course mid lessonId none env2.now with hF2def
    have hF1mod : ∀ m, (F1 m).moduleId = m.moduleId :=
      lessonMutation_moduleId course mid lessonId none env1.now
    set q1 : ProgressRecord :=
      { p with
        moduleProgress := mutateFirstModule mid F1 p.moduleProgress
        totalTimeSpent := p.totalTimeSpent + timeToAdd none } with hq1def
    have h1 : markLessonComplete db env1 p.student p.course mid lessonId none
        = ((updateProgress db env1 q1).1, .ok) := by
      simp only [markLessonComplete, hfind, hmod, if_true, hco, hq1def]
    set r1 := (updateProgress db env1 q1).2 with hr1def
    set db1 := (updateProgress db env1 q1).1 with hdb1def
    obtain ⟨hk1s, hk1c, hmp1, hov1, hcp1, hfs1, hta1, hca1, htq1, hcq1, haq1, haa1, -⟩ :=
      updateProgress_snd_fields db env1 q1
    have hfind1 : findOneProgress db1 [(.student, p.student), (.course, p.course)]
        = some r1 := by
      have := recordOf_updateProgress db env1 q1 p hfind
      rw [recordOf] at this
      exact this
    have hmp1' : r1.moduleProgress = mutateFirstModule mid F1 p.moduleProgress := hmp1
    have hmod2 : r1.moduleProgress.any (fun m => m.moduleId = mid) = true := by
      rw [hmp1', mutateFirstModule_any mid mid F1 hF1mod]
      exact hmod
    set q2 : ProgressRecord :=
      { r1 with
        moduleProgress := mutateFirstModule mid F2 r1.moduleProgress
        totalTimeSpent := r1.totalTimeSpent + timeToAdd none } with hq2def
    have h2 : markLessonComplete db1 env2 p.student p.course mid lessonId none
        = ((updateProgress db1 env2 q2).1, .ok) := by
      simp only [markLessonComplete, hfind1, hmod2, if_true, hco2, hq2def]
    have hfind2 : findOneProgress db1 [(.student, r1.student), (.course, r1.course)]
        = some r1 := by
      have h1s : r1.student = p.student := hk1s
      have h1c : r1.course = p.course := hk1c
      rw [h1s, h1c]
      exact hfind1
    set r2 := (updateProgress db1 env2 q2).2 with hr2def
    obtain ⟨hk2s, hk2c, hmp2, hov2, hcp2, hfs2, hta2, hca2, htq2, hcq2, haq2, haa2, -⟩ :=
      updateProgress_snd_fields db1 env2 q2
    have hfindr2 : recordOf (updateProgress db1 env2 q2).1 p.student p.course = some r2 := by
      have h := recordOf_updateProgress db1 env2 q2 r1 hfind2
      rw [show (q2.student : ℕ) = r1.student from rfl,
          show (q2.course : ℕ) = r1.course from rfl,
          show (r1.student : ℕ) = p.student from hk1s,
          show (r1.course : ℕ) = p.course from hk1c] at h
      exact h
    -- the second mutation only refreshes lastAccessed on the first mutation's list
    have hlist : q2.moduleProgress
        = mutateFirstModule mid (fun m => { m with lastAccessed := env2.now })
            (mutateFirstModule mid F1 p.moduleProgress) := by
      show mutateFirstModule mid F2 r1.moduleProgress = _
      rw [hmp1']
      rw [mutateFirstModule_comp mid F1 F2 hF1mod]
      rw [mutateFirstModule_comp mid F1 (fun m => { m with lastAccessed := env2.now }) hF1mod]
      have : (fun m => F2 (F1 m))
          = (fun m => ({ F1 m with lastAccessed := env2.now } : ModuleEntry)) := by
        funext m
        exact lessonMutation_idem course mid lessonId env1.now env2.now m
      rw [this]
    have hlen : q2.moduleProgress.length = q1.moduleProgress.length := by
      rw [hlist]
      show (mutateFirstModule mid _ (mutateFirstModule mid F1 p.moduleProgress)).length
        = (mutateFirstModule mid F1 p.moduleProgress).length
      rw [mutateFirstModule_length]
    have hcnt : q2.completedModules = q1.completedModules := by
      show (q2.moduleProgress.filter (fun m => m.completed)).length
        = (q1.moduleProgress.filter (fun m => m.completed)).length
      rw [hlist]
      exact mutateFirstModule_completedCount mid
        (fun m => { m with lastAccessed := env2.now }) (fun m => rfl)
        (mutateFirstModule mid F1 p.moduleProgress)
    have hmain : derivedView mid r2 = derivedView mid r1 := by
      rw [derivedView, derivedView]
      have e1 : r2.overallProgress = r1.overallProgress := by
        rw [hov2, hov1]
        exact calcOverall_eq_of q2 q1 hlen hcnt
      have e2 : r2.completionPercentage = r1.completionPercentage := by
        rw [hcp2, hcp1]
        exact calcCompletion_eq_of q2 q1 hlen hcnt
          (hta1.symm ▸ rfl) (hca1.symm ▸ rfl) (htq1.symm ▸ rfl) (hcq1.symm ▸ rfl)
      have e3 : r2.finalScore = r1.finalScore := by
        rw [hfs2, hfs1]
        exact calcFinal_eq_of q2 q1 (haq1.symm ▸ rfl) (haa1.symm ▸ rfl)
      have e4 : (getModule r2 mid).map (fun m => m.completedLessons)
          = (getModule r1 mid).map (fun m => m.completedLessons) := by
        rw [getModule, getModule, hmp2, hmp1']
        rw [show (q2.moduleProgress : List ModuleEntry)
            = mutateFirstModule mid (fun m => { m with lastAccessed := env2.now })
                (mutateFirstModule mid F1 p.moduleProgress) from hlist]
        rw [mutateFirstModule_find? mid
          (fun m => { m with lastAccessed := env2.now }) (fun m => rfl)]
        cases (mutateFirstModule mid F1 p.moduleProgress).find? (fun m => m.moduleId = mid) <;>
          rfl
      rw [e1, e2, e3, e4]
    simp only [h1, h2]
    rw [show ((updateProgress db1 env2 q2).1 : DB)
        = (updateProgress db1 env2 q2).1 from rfl] at hfindr2
    rw [hfindr2]
    rw [show recordOf db1 p.student p.course = some r1 from hfind1]
    rw [Option.map_some', Option.map_some', hmain]

/-- C7 witness: completing lesson 7 of module 0 twice on the concrete record,
    with the clock advanced between the calls. -/
theorem c7_mark_lesson_idempotent_witness :
    findOneProgress manualDB [(.student, 2), (.course, 1)] = some completedRecord
    ∧ completedRecord.moduleProgress.any (fun m => m.moduleId = 0) = true
    ∧ ({ manualEnv with now := 60 } : Env).findCourse 1 = manualEnv.findCourse 1
    ∧ ((recordOf (markLessonComplete
          (markLessonComplete manualDB manualEnv 2 1 0 7 none).1
          { manualEnv with now := 60 } 2 1 0 7 none).1 2 1).map (derivedView 0))
      = ((recordOf (markLessonComplete manualDB manualEnv 2 1 0 7 none).1 2 1).map
          (derivedView 0)) :=
  ⟨rfl, by decide, rfl,
    c7_mark_lesson_idempotent manualDB manualEnv { manualEnv with now := 60 } 2 1 0 7
      completedRecord rfl (by decide) rfl⟩

/-! ## Claim C2: retry of the automatic issuance trigger -/

/-- An environment in which the Course lookup fails (the course collection is
    empty) while the student exists. -/
def failEnv : Env where
  now := 10
  courses := []
  users := [2]
  rnd1 := 0
  rnd2 := 0

/-- A healthy environment: course 1 and student 2 both resolve. -/
def okEnv : Env where
  now := 20
  courses := [manualCourse]
  users := [2]
  rnd1 := 1
  rnd2 := 2

/-- The automatic trigger throws when no certificate exists for the pair and
    the Course or the Student lookup fails. -/
theorem autoGenerateCertificate_err_of_lookup (db : DB) (env : Env) (sid cid : ℕ)
    (pd : ProgressRecord)
    (hfc : findCertificate db sid cid = none)
    (hlk : env.findCourse cid = none ∨ env.userExists sid = false) :
    autoGenerateCertificate db env sid cid pd = .err := by
  rw [autoGenerateCertificate, hfc]
  rcases hlk with h | h
  · cases hu : env.userExists sid <;> rw [h]
  · cases hc : env.findCourse cid <;> rw [h]

/-- `updateProgress` when the completion threshold is crossed for the first
    time but the trigger throws: the dates are set, the record is saved, and
    the certificate store is untouched. -/
theorem updateProgress_trigger_err (db : DB) (env : Env) (r : ProgressRecord)
    (hge : r.calculateCompletionPercentage ≥ 100)
    (hdate : r.completionDate = none)
    (hgen : r.certificateGenerated = false)
    (herr : autoGenerateCertificate db env r.student r.course
        (dated env (recomputed env r)) = .err) :
    updateProgress db env r
      = (saveProgress db (dated env (recomputed env r)), dated env (recomputed env r)) := by
  rw [updateProgress_eq]
  rw [if_pos (show (recomputed env r).completionPercentage ≥ 100
      ∧ (recomputed env r).completionDate = none from ⟨hge, hdate⟩)]
  rw [if_pos (show r.certificateGenerated = false from hgen)]
  simp only [herr]

/-- `updateProgress` on a record whose `completionDate` is already set never
    reaches the certificate trigger. -/
theorem updateProgress_date_set (db : DB) (env : Env) (r : ProgressRecord)
    (hdate : r.completionDate ≠ none) :
    updateProgress db env r = (saveProgress db (recomputed env r), recomputed env r) := by
  rw [updateProgress_eq]
  rw [if_neg]
  intro hcon
  exact hdate hcon.2

/-- The completion percentage `updateProgress` computes on the concrete
    completed record: one module, completed, no tracked assessments. -/
theorem completedRecord_completionPercentage :
    completedRecord.calculateCompletionPercentage = 100 := by
  have hc : completedRecord.completedModules = 1 := by decide
  have hl : completedRecord.moduleProgress.length = 1 := by decide
  have ha : completedRecord.totalAssignments = 0 := by decide
  have hq : completedRecord.totalQuizzes = 0 := by decide
  rw [ProgressRecord.calculateCompletionPercentage]
  rw [hc, hl, ha, hq]
  norm_num
  exact jsRound_eval (by norm_num) (by norm_num)

/-- C2 counterexample: on the concrete store, the first `updateProgress` at
    100% completion fails its Course lookup — `certificateGenerated` stays
    false as the claim says — but the next qualifying update, with both
    lookups now succeeding, does not retry issuance: the trigger block is
    guarded by the now-set `completionDate`, so no certificate is ever
    created and the flag stays false. -/
theorem c2_counterexample :
    (updateProgress manualDB failEnv completedRecord).2.certificateGenerated = false
    ∧ (updateProgress manualDB failEnv completedRecord).1.certificates = []
    ∧ (updateProgress manualDB failEnv completedRecord).2.calculateCompletionPercentage = 100
    ∧ (updateProgress manualDB failEnv completedRecord).2.certificateGenerated = false
    ∧ okEnv.findCourse 1 = some manualCourse
    ∧ okEnv.userExists 2 = true
    ∧ (updateProgress (updateProgress manualDB failEnv completedRecord).1 okEnv
        (updateProgress manualDB failEnv completedRecord).2).1.certificates = []
    ∧ (updateProgress (updateProgress manualDB failEnv completedRecord).1 okEnv
        (updateProgress manualDB failEnv completedRecord).2).2.certificateGenerated = false := by
  have hge : completedRecord.calculateCompletionPercentage ≥ 100 := by
    rw [completedRecord_completionPercentage]
  have hstep1 : updateProgress manualDB failEnv completedRecord
      = (saveProgress manualDB (dated failEnv (recomputed failEnv completedRecord)),
         dated failEnv (recomputed failEnv completedRecord)) :=
    updateProgress_trigger_err manualDB failEnv completedRecord hge rfl rfl
      (autoGenerateCertificate_err_of_lookup manualDB failEnv 2 1 _ rfl (Or.inl rfl))
  rw [hstep1]
  have hcalc2 : (dated failEnv (recomputed failEnv completedRecord)).calculateCompletionPercentage
      = 100 := by
    have := calcCompletion_eq_of (dated failEnv (recomputed failEnv completedRecord))
      completedRecord rfl rfl rfl rfl rfl rfl
    rw [this, completedRecord_completionPercentage]
  have hstep2 : updateProgress (saveProgress manualDB (dated failEnv (recomputed failEnv completedRecord))) okEnv
      (dated failEnv (recomputed failEnv completedRecord))
      = (saveProgress (saveProgress manualDB (dated failEnv (recomputed failEnv completedRecord)))
          (recomputed okEnv (dated failEnv (recomputed failEnv completedRecord))),
         recomputed okEnv (dated failEnv (recomputed failEnv completedRecord))) :=
    updateProgress_date_set _ okEnv _ (by intro hcon; exact Option.noConfusion hcon)
  rw [hstep2]
  exact ⟨rfl, rfl, hcalc2, rfl, rfl, rfl, rfl, rfl⟩

/-- C2 amended: when a qualifying `updateProgress` (freshly computed
    completion at least 100, `completionDate` unset, `certificateGenerated`
    false) hits a failing Course or Student lookup, `certificateGenerated`
    stays false and `certificateEarned` is untouched — but `completionDate`
    is set by that same call, and because the trigger block only runs while
    `completionDate` is unset, no later `updateProgress` call retries
    issuance: it leaves the certificate store and the flag unchanged. -/
theorem c2_amended_no_retry (db : DB) (env : Env) (r : ProgressRecord)
    (hge : r.calculateCompletionPercentage ≥ 100)
    (hdate : r.completionDate = none)
    (hgen : r.certificateGenerated = false)
    (hfc : findCertificate db r.student r.course = none)
    (hlk : env.findCourse r.course = none ∨ env.userExists r.student = false) :
    ((updateProgress db env r).2.certificateGenerated = false
      ∧ (updateProgress db env r).2.certificateEarned = r.certificateEarned
      ∧ (updateProgress db env r).2.completionDate = some env.now
      ∧ (updateProgress db env r).1.certificates = db.certificates)
    ∧ ∀ (db' : DB) (env' : Env) (r' : ProgressRecord),
        r'.completionDate ≠ none →
        ((updateProgress db' env' r').1.certificates = db'.certificates
          ∧ (updateProgress db' env' r').2.certificateGenerated
              = r'.certificateGenerated) := by
  constructor
  · have hstep := updateProgress_trigger_err db env r hge hdate hgen
      (autoGenerateCertificate_err_of_lookup db env r.student r.course _ hfc hlk)
    rw [hstep]
    exact ⟨hgen, rfl, rfl, rfl⟩
  · intro db' env' r' hdate'
    rw [updateProgress_date_set db' env' r' hdate']
    exact ⟨rfl, rfl⟩

/-- C2 witness: the amended theorem applied to the concrete store, failing
    environment and completed record. -/
theorem c2_amended_no_retry_witness :
    completedRecord.calculateCompletionPercentage ≥ 100
    ∧ completedRecord.completionDate = none
    ∧ completedRecord.certificateGenerated = false
    ∧ findCertificate manualDB 2 1 = none
    ∧ (failEnv.findCourse 1 = none ∨ failEnv.userExists 2 = false)
    ∧ (((updateProgress manualDB failEnv completedRecord).2.certificateGenerated = false
        ∧ (updateProgress manualDB failEnv completedRecord).2.certificateEarned
            = completedRecord.certificateEarned
        ∧ (updateProgress manualDB failEnv completedRecord).2.completionDate = some failEnv.now
        ∧ (updateProgress manualDB failEnv completedRecord).1.certificates
            = manualDB.certificates)
      ∧ ∀ (db' : DB) (env' : Env) (r' : ProgressRecord),
          r'.completionDate ≠ none →
          ((updateProgress db' env' r').1.certificates = db'.certificates
            ∧ (updateProgress db' env' r').2.certificateGenerated
                = r'.certificateGenerated)) :=
  ⟨by simp [completedRecord_completionPercentage], rfl, rfl, rfl, Or.inl rfl,
    c2_amended_no_retry manualDB failEnv completedRecord
      (by simp [completedRecord_completionPercentage]) rfl rfl rfl (Or.inl rfl)⟩

/-! ## Claim C1: the certificate linkage invariant -/

/-- The linkage invariant of one Enrollment Record against the store: when the
    guard flag is set there is exactly one Certificate for the pair and
    `certificateEarned` references it; when it is clear there is no linked
    certificate and no Certificate document for the pair. -/
def RecordCertInv (db : DB) (r : ProgressRecord) : Prop :=
  (r.certificateGenerated = true →
    ∃ cert, pairCerts db r.student r.course = [cert]
      ∧ r.certificateEarned = some cert.certId)
  ∧ (r.certificateGenerated = false →
    r.certificateEarned = none ∧ pairCerts db r.student r.course = [])

/-- The linkage invariant of the whole store. -/
def CertInv (db : DB) : Prop :=
  ∀ r ∈ db.progresses, RecordCertInv db r

/-- `RecordCertInv` only reads the pair certificates and the key and link
    fields. -/
theorem RecordCertInv_transfer {db db' : DB} {r r' : ProgressRecord}
    (hp : pairCerts db' r'.student r'.course = pairCerts db r.student r.course)
    (hg : r'.certificateGenerated = r.certificateGenerated)
    (he : r'.certificateEarned = r.certificateEarned)
    (h : RecordCertInv db r) : RecordCertInv db' r' := by
  constructor
  · intro ht
    obtain ⟨cert, h1, h2⟩ := h.1 (by rw [← hg]; exact ht)
    exact ⟨cert, hp.trans h1, he.trans h2⟩
  · intro hf
    obtain ⟨h1, h2⟩ := h.2 (by rw [← hg]; exact hf)
    exact ⟨he.trans h1, hp.trans h2⟩

/-- Key- and link-preserving record rewrites preserve `RecordCertInv`. -/
theorem RecordCertInv_congr {db : DB} {r r' : ProgressRecord}
    (hs : r'.student = r.student) (hc : r'.course = r.course)
    (hg : r'.certificateGenerated = r.certificateGenerated)
    (he : r'.certificateEarned = r.certificateEarned)
    (h : RecordCertInv db r) : RecordCertInv db r' :=
  RecordCertInv_transfer (by rw [hs, hc]) hg he h

/-- An empty pair-certificate list makes the existence query miss. -/
theorem findCertificate_none_of_pairCerts {db : DB} {sid cid : ℕ}
    (h : pairCerts db sid cid = []) : findCertificate db sid cid = none := by
  rw [findCertificate, List.find?_eq_none]
  intro x hx hpx
  have : x ∈ pairCerts db sid cid := List.mem_filter.mpr ⟨hx, hpx⟩
  rw [h] at this
  exact absurd this (List.not_mem_nil x)

/-- Saving a record satisfying the invariant preserves the store invariant. -/
theorem CertInv_saveProgress {db : DB} {r : ProgressRecord}
    (hinv : CertInv db) (hr : RecordCertInv db r) : CertInv (saveProgress db r) := by
  intro v hv
  simp only [saveProgress, List.mem_map] at hv
  obtain ⟨y, hy, hfy⟩ := hv
  have hpc : ∀ sid cid, pairCerts (saveProgress db r) sid cid = pairCerts db sid cid :=
    fun sid cid => rfl
  by_cases hcond : y.student = r.student ∧ y.course = r.course
  · rw [if_pos hcond] at hfy
    subst hfy
    exact RecordCertInv_transfer (hpc _ _) rfl rfl hr
  · rw [if_neg hcond] at hfy
    subst hfy
    exact RecordCertInv_transfer (hpc _ _) rfl rfl (hinv y hy)

/-- Appending one certificate of the addressed pair to a store with no
    certificate of that pair gives exactly one. -/
theorem pairCerts_after_insert {db dbf : DB} {cert : Certificate} {sid cid : ℕ}
    (h : dbf.certificates = db.certificates ++ [cert])
    (hcs : cert.student = sid) (hcc : cert.course = cid)
    (hempty : pairCerts db sid cid = []) :
    pairCerts dbf sid cid = [cert] := by
  rw [pairCerts, h, List.filter_append]
  rw [show db.certificates.filter (fun c => c.student = sid && c.course = cid)
      = pairCerts db sid cid from rfl, hempty]
  simp [hcs, hcc]

/-- Appending a certificate of a different pair leaves a pair's certificate
    list unchanged. -/
theorem pairCerts_after_insert_other {db dbf : DB} {cert : Certificate} {sid cid : ℕ}
    (h : dbf.certificates = db.certificates ++ [cert])
    (hne : ¬ (cert.student = sid ∧ cert.course = cid)) :
    pairCerts dbf sid cid = pairCerts db sid cid := by
  rw [pairCerts, pairCerts, h, List.filter_append]
  have hsingle : List.filter (fun c => c.student = sid && c.course = cid) [cert] = [] := by
    simp only [List.filter_cons, List.filter_nil]
    split_ifs with hcs
    · exfalso
      apply hne
      simpa using hcs
    · rfl
  rw [hsingle, List.append_nil]

/-- `updateProgress` preserves the store invariant, when run on a record whose
    key and link fields agree with a stored record (as the controllers
    guarantee: they load the record by key and mutate only other fields). -/
theorem CertInv_updateProgress (db : DB) (env : Env) (q p₀ : ProgressRecord)
    (hmem : p₀ ∈ db.progresses)
    (hs : q.student = p₀.student) (hc : q.course = p₀.course)
    (hg : q.certificateGenerated = p₀.certificateGenerated)
    (he : q.certificateEarned = p₀.certificateEarned)
    (hinv : CertInv db) : CertInv (updateProgress db env q).1 := by
  have hbase : RecordCertInv db p₀ := hinv p₀ hmem
  rw [updateProgress_eq]
  split_ifs with h1 h2
  · -- completion crossed for the first time, flag still clear
    cases hag : autoGenerateCertificate db env q.student q.course
        (dated env (recomputed env q)) with
    | ok cert db' =>
      obtain ⟨hprog, hcases⟩ :=
        autoGenerateCertificate_ok_cases db env q.student q.course _ cert db' hag
      have hgen0 : p₀.certificateGenerated = false := hg ▸ h2
      obtain ⟨hearn0, hpc0⟩ := hbase.2 hgen0
      have hpc0' : pairCerts db q.student q.course = [] := by rw [hs, hc]; exact hpc0
      rcases hcases with ⟨hsome, _⟩ | ⟨hnone, hcerts, hcs, hcc⟩
      · exfalso
        rw [findCertificate_none_of_pairCerts hpc0'] at hsome
        exact Option.noConfusion hsome
      · -- a fresh certificate was inserted and the saved record links it
        intro v hv
        simp only [saveProgress, List.mem_map] at hv
        obtain ⟨y, hy, hfy⟩ := hv
        rw [hprog] at hy
        have hfinalcerts :
            (saveProgress db' (linked cert (dated env (recomputed env q)))).certificates
              = db.certificates ++ [cert] := hcerts
        by_cases hcond : y.student = q.student ∧ y.course = q.course
        · have hcond' : y.student = (linked cert (dated env (recomputed env q))).student
              ∧ y.course = (linked cert (dated env (recomputed env q))).course := hcond
          have hfy' : linked cert (dated env (recomputed env q)) = v := by
            rw [← hfy, if_pos hcond']
          subst hfy'
          constructor
          · intro _
            refine ⟨cert, ?_, rfl⟩
            exact pairCerts_after_insert hfinalcerts hcs hcc hpc0'
          · intro habs
            exact absurd habs (by simp [linked])
        · have hcond' : ¬ (y.student = (linked cert (dated env (recomputed env q))).student
              ∧ y.course = (linked cert (dated env (recomputed env q))).course) := hcond
          have hfy' : y = v := by rw [← hfy, if_neg hcond']
          subst hfy'
          refine RecordCertInv_transfer ?_ rfl rfl (hinv y hy)
          refine pairCerts_after_insert_other hfinalcerts ?_
          intro hcontra
          exact hcond ⟨by rw [← hcontra.1, hcs], by rw [← hcontra.2, hcc]⟩
    | err =>
      exact CertInv_saveProgress hinv
        (RecordCertInv_congr hs hc hg he hbase)
  · -- completion crossed but a certificate was already generated
    exact CertInv_saveProgress hinv (RecordCertInv_congr hs hc hg he hbase)
  · -- completion threshold not freshly crossed
    exact CertInv_saveProgress hinv (RecordCertInv_congr hs hc hg he hbase)

/-- The manual endpoint never changes the store: its Progress lookup uses the
    nonexistent `user` path, so the creation branch is unreachable and every
    other branch only reads. -/
theorem generateCertificate_fst (db : DB) (env : Env) (cid sid : ℕ) :
    (generateCertificate db env cid sid).1 = db := by
  rw [generateCertificate]
  cases hfc : findCertificate db sid cid with
  | some ex => rfl
  | none =>
    cases hco : env.findCourse cid with
    | none => rfl
    | some course =>
      cases hu : env.userExists sid with
      | false => rfl
      | true =>
        rw [findOneProgress_user db sid cid]
        rfl

/-- Every pipeline operation preserves the store invariant. -/
theorem CertInv_stepOp (db : DB) (oe : Op × Env) (hinv : CertInv db) :
    CertInv (stepOp db oe) := by
  rcases oe with ⟨op, env⟩
  cases op with
  | markLesson s c mid lid t =>
    show CertInv (markLessonComplete db env s c mid lid t).1
    cases hf : findOneProgress db [(.student, s), (.course, c)] with
    | none =>
      have heq : (markLessonComplete db env s c mid lid t).1 = db := by
        simp [markLessonComplete, hf]
      rw [heq]
      exact hinv
    | some p =>
      cases hany : p.moduleProgress.any (fun m => m.moduleId = mid) with
      | false =>
        have heq : (markLessonComplete db env s c mid lid t).1 = db := by
          simp [markLessonComplete, hf, hany]
        rw [heq]
        exact hinv
      | true =>
        cases hco : env.findCourse c with
        | none =>
          have heq : (markLessonComplete db env s c mid lid t).1 = db := by
            simp [markLessonComplete, hf, hany, hco]
          rw [heq]
          exact hinv
        | some course =>
          have heq : (markLessonComplete db env s c mid lid t).1
              = (updateProgress db env
                  { p with
                    moduleProgress :=
                      mutateFirstModule mid (lessonMutation course mid lid t env.now)
                        p.moduleProgress
                    totalTimeSpent := p.totalTimeSpent + timeToAdd t }).1 := by
            simp [markLessonComplete, hf, hany, hco]
          rw [heq]
          exact CertInv_updateProgress db env _ p (findOneProgress_mem hf)
            rfl rfl rfl rfl hinv
  | markModule s c mid =>
    show CertInv (markModuleComplete db env s c mid).1
    cases hf : findOneProgress db [(.student, s), (.course, c)] with
    | none =>
      have heq : (markModuleComplete db env s c mid).1 = db := by
        simp [markModuleComplete, hf]
      rw [heq]
      exact hinv
    | some p =>
      cases hany : p.moduleProgress.any (fun m => m.moduleId = mid) with
      | false =>
        have heq : (markModuleComplete db env s c mid).1 = db := by
          simp [markModuleComplete, hf, hany]
        rw [heq]
        exact hinv
      | true =>
        have heq : (markModuleComplete db env s c mid).1
            = (updateProgress db env
                { p with
                  moduleProgress :=
                    mutateFirstModule mid
                      (fun m => { m with completed := true, lastAccessed := env.now })
                      p.moduleProgress }).1 := by
          simp [markModuleComplete, hf, hany]
        rw [heq]
        exact CertInv_updateProgress db env _ p (findOneProgress_mem hf)
          rfl rfl rfl rfl hinv
  | addTime s c mid t =>
    show CertInv (addTimeSpent db env s c mid t).1
    cases t with
    | none => exact hinv
    | some ts =>
      by_cases h0 : ts = 0
      · have heq : (addTimeSpent db env s c mid (some ts)).1 = db := by
          simp [addTimeSpent, h0]
        rw [heq]
        exact hinv
      · cases hf : findOneProgress db [(.student, s), (.course, c)] with
        | none =>
          have heq : (addTimeSpent db env s c mid (some ts)).1 = db := by
            simp [addTimeSpent, h0, hf]
          rw [heq]
          exact hinv
        | some p =>
          cases mid with
          | none =>
            have heq : (addTimeSpent db env s c none (some ts)).1
                = saveProgress db
                    { p with totalTimeSpent := p.totalTimeSpent + ts,
                             lastActivity := env.now } := by
              simp [addTimeSpent, h0, hf]
            rw [heq]
            exact CertInv_saveProgress hinv
              (RecordCertInv_congr rfl rfl rfl rfl (hinv p (findOneProgress_mem hf)))
          | some m =>
            cases hany : p.moduleProgress.any (fun mm => mm.moduleId = m) with
            | false =>
              have heq : (addTimeSpent db env s c (some m) (some ts)).1
                  = saveProgress db
                      { p with totalTimeSpent := p.totalTimeSpent + ts,
                               lastActivity := env.now } := by
                simp [addTimeSpent, h0, hf, hany]
              rw [heq]
              exact CertInv_saveProgress hinv
                (RecordCertInv_congr rfl rfl rfl rfl (hinv p (findOneProgress_mem hf)))
            | true =>
              have heq : (addTimeSpent db env s c (some m) (some ts)).1
                  = saveProgress db
                      { { p with
                          moduleProgress :=
                            mutateFirstModule m
                              (fun mm => { mm with timeSpent := mm.timeSpent + ts,
                                                   lastAccessed := env.now })
                              p.moduleProgress } with
                        totalTimeSpent := p.totalTimeSpent + ts,
                        lastActivity := env.now } := by
                simp [addTimeSpent, h0, hf, hany]
              rw [heq]
              exact CertInv_saveProgress hinv
                (RecordCertInv_congr rfl rfl rfl rfl (hinv p (findOneProgress_mem hf)))
  | genCert c s =>
    show CertInv (generateCertificate db env c s).1
    rw [generateCertificate_fst]
    exact hinv

/-- Any sequence of pipeline operations preserves the store invariant. -/
theorem CertInv_runOps (db : DB) (ops : List (Op × Env)) (hinv : CertInv db) :
    CertInv (runOps db ops) := by
  induction ops generalizing db with
  | nil => exact hinv
  | cons oe rest ih => exact ih (stepOp db oe) (CertInv_stepOp db oe hinv)

/-- A freshly enrolled store satisfies the invariant. -/
theorem CertInv_initDB (enrollments : List (ℕ × ℕ × List ℕ)) :
    CertInv (initDB enrollments) := by
  intro r hr
  simp only [initDB, List.mem_map] at hr
  obtain ⟨e, -, he⟩ := hr
  subst he
  constructor
  · intro habs
    exact absurd habs (by simp [freshRecord])
  · intro _
    exact ⟨rfl, rfl⟩

/-- C1: for every (student, course) pair, after any sequence of pipeline
    operations from enrollment, the Enrollment Record's `certificateGenerated`
    is true iff `certificateEarned` references an existing Certificate, iff
    exactly one Certificate document exists for the pair. -/
theorem c1_certificate_link_invariant (enrollments : List (ℕ × ℕ × List ℕ))
    (ops : List (Op × Env)) (sid cid : ℕ) (r : ProgressRecord)
    (h : recordOf (runOps (initDB enrollments) ops) sid cid = some r) :
    (r.certificateGenerated = true
        ↔ ∃ cert ∈ (runOps (initDB enrollments) ops).certificates,
            r.certificateEarned = some cert.certId)
    ∧ (r.certificateGenerated = true
        ↔ (pairCerts (runOps (initDB enrollments) ops) sid cid).length = 1) := by
  have hinv := CertInv_runOps (initDB enrollments) ops (CertInv_initDB enrollments)
  rw [recordOf] at h
  obtain ⟨hks, hkc⟩ := findOneProgress_key h
  have hr := hinv r (findOneProgress_mem h)
  subst hks
  subst hkc
  constructor
  · constructor
    · intro ht
      obtain ⟨cert, h1, h2⟩ := hr.1 ht
      refine ⟨cert, ?_, h2⟩
      have : cert ∈ pairCerts (runOps (initDB enrollments) ops) r.student r.course := by
        rw [h1]
        exact List.mem_singleton.mpr rfl
      exact List.mem_of_mem_filter this
    · intro hex
      cases hgen : r.certificateGenerated with
      | true => rfl
      | false =>
        obtain ⟨hearn, -⟩ := hr.2 hgen
        obtain ⟨cert, -, hcert⟩ := hex
        rw [hearn] at hcert
        exact Option.noConfusion hcert
  · constructor
    · intro ht
      obtain ⟨cert, h1, -⟩ := hr.1 ht
      rw [h1]
      rfl
    · intro hlen
      cases hgen : r.certificateGenerated with
      | true => rfl
      | false =>
        obtain ⟨-, hempty⟩ := hr.2 hgen
        rw [hempty] at hlen
        exact absurd hlen (by simp)

/-- C1 witness: a one-enrollment store after a manual-issuance attempt (which
    cannot create anything); the record's flag is clear, nothing is linked and
    no certificate exists. -/
theorem c1_certificate_link_invariant_witness :
    recordOf (runOps (initDB [(2, 1, [0])]) [(.genCert 1 2, okEnv)]) 2 1
        = some (freshRecord 2 1 [0] 0)
    ∧ (((freshRecord 2 1 [0] 0).certificateGenerated = true
        ↔ ∃ cert ∈ (runOps (initDB [(2, 1, [0])]) [(.genCert 1 2, okEnv)]).certificates,
            (freshRecord 2 1 [0] 0).certificateEarned = some cert.certId)
      ∧ ((freshRecord 2 1 [0] 0).certificateGenerated = true
        ↔ (pairCerts (runOps (initDB [(2, 1, [0])]) [(.genCert 1 2, okEnv)]) 2 1).length
            = 1)) :=
  ⟨rfl, c1_certificate_link_invariant [(2, 1, [0])] [(.genCert 1 2, okEnv)] 2 1
    (freshRecord 2 1 [0] 0) rfl⟩

end CoursePlatform
